import Mathlib

/-!
Verification development for the mcp-task-relay scheduler.

This file contains a shallow embedding of the scheduler's core: the JSON
context-envelope canonicalization and hashing (src/utils/hash.ts), the job
state machine (src/models/states.ts), the SQLite-backed repositories
(src/db/jobs-repository.ts, asks-repository.ts, answers-repository.ts,
decision-cache-repository.ts), the JobManager (src/core/job-manager.ts), the
Ask/Answer HTTP bridge's long-poll handler (src/services/ask-answer.ts), and
the Answer Runner (src/answer-runner/runner.ts), together with theorems about
their behaviour.

Conventions of the embedding:
- Timestamps are `Nat` milliseconds, passed explicitly where the source calls
  `Date.now()`.
- The SQLite database is a record of lists of typed rows; SQL `UPDATE ... WHERE`
  is modelled as a map over the rows updating every row matching the WHERE
  clause, with `changes` the count of matching rows; `UNIQUE` / primary-key
  constraints are modelled as membership checks that fail the INSERT.
- The result-or-error convention (`{ok:true,value} | {ok:false,error}`) is
  modelled as `Except String`.
- JSON numbers are modelled as integers (the envelopes and payloads exercised
  by the scheduler carry integral numbers); JSON strings are Lean strings.
-/

namespace TaskRelay

/-! ## JSON values

Generic JSON values, the domain of `stableHashContext` (the source treats the
context envelope as `unknown` and canonicalizes it generically). -/

/-- A JSON value. Objects are ordered association lists, mirroring JavaScript
object key order before canonicalization. -/
inductive Json where
  | null : Json
  | bool : Bool → Json
  | num : Int → Json
  | str : String → Json
  | arr : List Json → Json
  | obj : List (String × Json) → Json
deriving Repr

/-- Well-formedness of a JSON value as a JavaScript value: every object has
no duplicate keys (JavaScript objects cannot hold two bindings of one key). -/
def nodupKeysB : List (String × Json) → Bool
  | [] => true
  | (k, _) :: fs => (!fs.any (fun p => p.1 == k)) && nodupKeysB fs

mutual

/-- A JSON value all of whose objects have pairwise-distinct keys. -/
def Json.wf : Json → Bool
  | .null => true
  | .bool _ => true
  | .num _ => true
  | .str _ => true
  | .arr xs => Json.wfList xs
  | .obj fs => nodupKeysB fs && Json.wfFields fs

/-- `Json.wf` over every element of an array. -/
def Json.wfList : List Json → Bool
  | [] => true
  | x :: xs => Json.wf x && Json.wfList xs

/-- `Json.wf` over every value of an object's field list. -/
def Json.wfFields : List (String × Json) → Bool
  | [] => true
  | (_, v) :: fs => Json.wf v && Json.wfFields fs

end

/-! ## Canonicalization (src/utils/hash.ts, `stableHashContext`)

The source recursively sorts object keys (`Object.keys(obj).sort()`), keeps
array order, and leaves scalars untouched. Sorting the keys first and then
canonicalizing each value is the same as canonicalizing each value and then
sorting the fields by key (the sort looks only at keys and canonicalization
preserves keys); the embedding uses the latter order, which is structurally
recursive. -/

/-- Key-wise order on object fields, the order `Object.keys(obj).sort()`
sorts by. -/
def keyLe (a b : String × Json) : Prop := a.1 ≤ b.1

instance : DecidableRel keyLe := fun a b => inferInstanceAs (Decidable (a.1 ≤ b.1))

instance : IsTotal (String × Json) keyLe := ⟨fun a b => le_total a.1 b.1⟩

instance : IsTrans (String × Json) keyLe := ⟨fun _ _ _ h1 h2 => le_trans h1 h2⟩

/-- Strict key-wise order on object fields. -/
def keyLt (a b : String × Json) : Prop := a.1 < b.1

instance : IsAntisymm (String × Json) keyLt :=
  ⟨fun _ _ h1 h2 => absurd h2 (lt_asymm h1)⟩

/-- Sort an object's fields by key, as `Object.keys(obj).sort()` does. -/
def sortFields (fs : List (String × Json)) : List (String × Json) :=
  List.insertionSort keyLe fs

mutual

/-- Recursively sort object keys; arrays keep order; scalars unchanged.
Translated from the `canonicalize` closure of `stableHashContext`. -/
def canonicalize : Json → Json
  | .null => .null
  | .bool b => .bool b
  | .num n => .num n
  | .str s => .str s
  | .arr xs => .arr (canonicalizeList xs)
  | .obj fs => .obj (sortFields (canonicalizeFields fs))

/-- `canonicalize` mapped over an array's elements, keeping order. -/
def canonicalizeList : List Json → List Json
  | [] => []
  | x :: xs => canonicalize x :: canonicalizeList xs

/-- `canonicalize` mapped over an object's values, keeping keys. -/
def canonicalizeFields : List (String × Json) → List (String × Json)
  | [] => []
  | (k, v) :: fs => (k, canonicalize v) :: canonicalizeFields fs

end

/-! ## Minimal JSON serialization (`JSON.stringify` without spacing) -/

/-- Escape one character as inside a JSON string literal, as
`JSON.stringify` does. -/
def escapeChar (c : Char) : String :=
  if c = '"' then "\\\""
  else if c = '\\' then "\\\\"
  else if c = '\n' then "\\n"
  else if c = '\r' then "\\r"
  else if c = '\t' then "\\t"
  else if c = (Char.ofNat 8) then "\\b"
  else if c = (Char.ofNat 12) then "\\f"
  else if c.toNat < 32 then
    let hd : Nat → Char := fun n =>
      if n < 10 then Char.ofNat (48 + n) else Char.ofNat (87 + n)
    "\\u00" ++ String.mk [hd (c.toNat / 16), hd (c.toNat % 16)]
  else String.mk [c]

/-- A JSON string literal for `s`, double quotes included. -/
def jsonQuote (s : String) : String :=
  "\"" ++ String.join (s.data.map escapeChar) ++ "\""

mutual

/-- Minimal JSON serialization (no insignificant whitespace), as
`JSON.stringify` produces on the canonicalized value. -/
def serialize : Json → String
  | .null => "null"
  | .bool true => "true"
  | .bool false => "false"
  | .num n => toString n
  | .str s => jsonQuote s
  | .arr xs => "[" ++ serializeList xs ++ "]"
  | .obj fs => "\x7b" ++ serializeFields fs ++ "\x7d"

/-- Comma-joined serialization of array elements. -/
def serializeList : List Json → String
  | [] => ""
  | [x] => serialize x
  | x :: y :: xs => serialize x ++ "," ++ serializeList (y :: xs)

/-- Comma-joined serialization of object fields. -/
def serializeFields : List (String × Json) → String
  | [] => ""
  | [(k, v)] => jsonQuote k ++ ":" ++ serialize v
  | (k, v) :: f :: fs => jsonQuote k ++ ":" ++ serialize v ++ "," ++ serializeFields (f :: fs)

end

/-! ## SHA-256 (Node `crypto.createHash('sha256')`)

A reference implementation of FIPS 180-4 SHA-256 over byte lists, with 32-bit
words as `Nat` reduced mod `2^32`. -/

/-- Truncate to a 32-bit word. -/
def w32 (x : Nat) : Nat := x % 4294967296

/-- Rotate a 32-bit word right by `n`. -/
def rotr32 (n x : Nat) : Nat := w32 ((x >>> n) ||| (x <<< (32 - n)))

/-- SHA-256 Σ₀. -/
def bsig0 (x : Nat) : Nat := (rotr32 2 x) ^^^ (rotr32 13 x) ^^^ (rotr32 22 x)

/-- SHA-256 Σ₁. -/
def bsig1 (x : Nat) : Nat := (rotr32 6 x) ^^^ (rotr32 11 x) ^^^ (rotr32 25 x)

/-- SHA-256 σ₀. -/
def ssig0 (x : Nat) : Nat := (rotr32 7 x) ^^^ (rotr32 18 x) ^^^ (x >>> 3)

/-- SHA-256 σ₁. -/
def ssig1 (x : Nat) : Nat := (rotr32 17 x) ^^^ (rotr32 19 x) ^^^ (x >>> 10)

/-- SHA-256 round constants. -/
def k256 : List Nat :=
  [1116352408, 1899447441, 3049323471, 3921009573, 961987163, 1508970993,
   2453635748, 2870763221, 3624381080, 310598401, 607225278, 1426881987,
   1925078388, 2162078206, 2614888103, 3248222580, 3835390401, 4022224774,
   264347078, 604807628, 770255983, 1249150122, 1555081692, 1996064986,
   2554220882, 2821834349, 2952996808, 3210313671, 3336571891, 3584528711,
   113926993, 338241895, 666307205, 773529912, 1294757372, 1396182291,
   1695183700, 1986661051, 2177026350, 2456956037, 2730485921, 2820302411,
   3259730800, 3345764771, 3516065817, 3600352804, 4094571909, 275423344,
   430227734, 506948616, 659060556, 883997877, 958139571, 1322822218,
   1537002063, 1747873779, 1955562222, 2024104815, 2227730452, 2361852424,
   2428436474, 2756734187, 3204031479, 3329325298]

/-- SHA-256 working state: eight 32-bit words. -/
structure Sha256State where
  a : Nat
  b : Nat
  c : Nat
  d : Nat
  e : Nat
  f : Nat
  g : Nat
  h : Nat

/-- SHA-256 initial hash value. -/
def sha256Init : Sha256State :=
  ⟨1779033703, 3144134277, 1013904242, 2773480762,
   1359893119, 2600822924, 528734635, 1541459225⟩

/-- Extend a 16-word block to the 64-word message schedule. -/
def extendSchedule (ws : List Nat) (rounds : Nat) : List Nat :=
  match rounds with
  | 0 => ws
  | r + 1 =>
    let t := ws.length
    let wNew := w32 (ssig1 (ws.getD (t - 2) 0) + ws.getD (t - 7) 0 +
                     ssig0 (ws.getD (t - 15) 0) + ws.getD (t - 16) 0)
    extendSchedule (ws ++ [wNew]) r

/-- One SHA-256 round. -/
def sha256Round (st : Sha256State) (k w : Nat) : Sha256State :=
  let t1 := w32 (st.h + bsig1 st.e + ((st.e &&& st.f) ^^^ ((0xffffffff ^^^ st.e) &&& st.g)) + k + w)
  let t2 := w32 (bsig0 st.a + ((st.a &&& st.b) ^^^ (st.a &&& st.c) ^^^ (st.b &&& st.c)))
  ⟨w32 (t1 + t2), st.a, st.b, st.c, w32 (st.d + t1), st.e, st.f, st.g⟩

/-- Compress one 64-word schedule into the hash state. -/
def sha256Compress (st : Sha256State) (ws : List Nat) : Sha256State :=
  let final := (List.zip k256 ws).foldl (fun s kw => sha256Round s kw.1 kw.2) st
  ⟨w32 (st.a + final.a), w32 (st.b + final.b), w32 (st.c + final.c), w32 (st.d + final.d),
   w32 (st.e + final.e), w32 (st.f + final.f), w32 (st.g + final.g), w32 (st.h + final.h)⟩

/-- Split a byte list into 64-byte blocks (the input length is a multiple
of 64 after padding; `fuel` bounds the recursion). -/
def toBlocks : Nat → List Nat → List (List Nat)
  | 0, _ => []
  | _, [] => []
  | fuel + 1, bytes => bytes.take 64 :: toBlocks fuel (bytes.drop 64)

/-- Pack four big-endian bytes into one 32-bit word, over a whole block. -/
def blockWords : Nat → List Nat → List Nat
  | 0, _ => []
  | _, [] => []
  | fuel + 1, bytes =>
    w32 ((bytes.getD 0 0 <<< 24) ||| (bytes.getD 1 0 <<< 16) |||
         (bytes.getD 2 0 <<< 8) ||| bytes.getD 3 0) :: blockWords fuel (bytes.drop 4)

/-- SHA-256 message padding: append `0x80`, zeros to 56 mod 64, then the
bit length as eight big-endian bytes. -/
def sha256Pad (msg : List Nat) : List Nat :=
  let len := msg.length
  let zeros := (119 - len % 64) % 64
  let bitLen := 8 * len
  msg ++ [0x80] ++ List.replicate zeros 0 ++
    [w32 (bitLen >>> 56) % 256, (bitLen >>> 48) % 256, (bitLen >>> 40) % 256,
     (bitLen >>> 32) % 256, (bitLen >>> 24) % 256, (bitLen >>> 16) % 256,
     (bitLen >>> 8) % 256, bitLen % 256]

/-- SHA-256 of a byte list, as the eight-word final state. -/
def sha256Digest (msg : List Nat) : Sha256State :=
  let padded := sha256Pad msg
  (toBlocks padded.length padded).foldl
    (fun st block => sha256Compress st (extendSchedule (blockWords 16 block) 48)) sha256Init

/-- Lowercase hexadecimal digit: `0`-`9` then `a`-`f`. -/
def hexDigit (n : Nat) : Char :=
  if n < 10 then Char.ofNat (48 + n) else Char.ofNat (87 + n)

/-- Eight lowercase hex digits of a 32-bit word. -/
def hexWord (x : Nat) : String :=
  String.mk [hexDigit ((x >>> 28) % 16), hexDigit ((x >>> 24) % 16),
             hexDigit ((x >>> 20) % 16), hexDigit ((x >>> 16) % 16),
             hexDigit ((x >>> 12) % 16), hexDigit ((x >>> 8) % 16),
             hexDigit ((x >>> 4) % 16), hexDigit (x % 16)]

/-- Lowercase hex rendering of a SHA-256 state, as `digest('hex')` returns. -/
def digestHex (st : Sha256State) : String :=
  hexWord st.a ++ hexWord st.b ++ hexWord st.c ++ hexWord st.d ++
  hexWord st.e ++ hexWord st.f ++ hexWord st.g ++ hexWord st.h

/-- UTF-8 bytes of a string, as `hash.update(content, 'utf8')` feeds them. -/
def utf8Bytes (s : String) : List Nat :=
  s.toUTF8.toList.map (fun b => b.toNat)

/-- Lowercase-hex SHA-256 of the UTF-8 bytes of a string. -/
def sha256Hex (s : String) : String :=
  digestHex (sha256Digest (utf8Bytes s))

/-- Create a stable, deterministic SHA-256 hash of a context envelope.
Translated from `stableHashContext` in src/utils/hash.ts: canonicalize
(recursively sort object keys), serialize minimally, SHA-256, lowercase hex. -/
def stableHashContext (envelope : Json) : String :=
  sha256Hex (serialize (canonicalize envelope))

/-! ## Key-order invariance of `stableHashContext`

`KeyShuffle a b` says that `b` arises from `a` by reordering object keys at
arbitrary depth, with array order unchanged — the relation of §8's hash
determinism property. -/

mutual

/-- `b` is `a` with object keys reordered at any depth (arrays keep order). -/
inductive KeyShuffle : Json → Json → Prop where
  | null : KeyShuffle .null .null
  | bool (b : Bool) : KeyShuffle (.bool b) (.bool b)
  | num (n : Int) : KeyShuffle (.num n) (.num n)
  | str (s : String) : KeyShuffle (.str s) (.str s)
  | arr {xs ys : List Json} : KeyShuffleList xs ys → KeyShuffle (.arr xs) (.arr ys)
  | obj {fs gs gs' : List (String × Json)} :
      KeyShuffleFields fs gs' → List.Perm gs' gs → KeyShuffle (.obj fs) (.obj gs)

/-- Pointwise `KeyShuffle` on array elements. -/
inductive KeyShuffleList : List Json → List Json → Prop where
  | nil : KeyShuffleList [] []
  | cons {x y : Json} {xs ys : List Json} :
      KeyShuffle x y → KeyShuffleList xs ys → KeyShuffleList (x :: xs) (y :: ys)

/-- Pointwise `KeyShuffle` on object fields with identical keys. -/
inductive KeyShuffleFields : List (String × Json) → List (String × Json) → Prop where
  | nil : KeyShuffleFields [] []
  | cons {k : String} {v w : Json} {fs gs : List (String × Json)} :
      KeyShuffle v w → KeyShuffleFields fs gs →
      KeyShuffleFields ((k, v) :: fs) ((k, w) :: gs)

end

/-- If no field of `fs` has key `k` and `fs` has pairwise-distinct keys, the
keys of `fs` are `Nodup`. -/
theorem nodupKeysB_nodup {fs : List (String × Json)} (h : nodupKeysB fs = true) :
    (fs.map Prod.fst).Nodup := by
  induction fs with
  | nil => simp
  | cons p fs ih =>
    obtain ⟨k, v⟩ := p
    simp only [nodupKeysB, Bool.and_eq_true, Bool.not_eq_true'] at h
    refine List.nodup_cons.mpr ⟨?_, ih h.2⟩
    intro hmem
    rw [List.mem_map] at hmem
    obtain ⟨q, hq, hk⟩ := hmem
    have hfalse : fs.any (fun p => p.1 == k) = true :=
      List.any_eq_true.mpr ⟨q, hq, beq_iff_eq.mpr hk⟩
    rw [h.1] at hfalse
    exact Bool.false_ne_true hfalse

/-- `Json.wfFields` is membership-wise well-formedness of the values. -/
theorem wfFields_iff {fs : List (String × Json)} :
    Json.wfFields fs = true ↔ ∀ p ∈ fs, Json.wf p.2 = true := by
  induction fs with
  | nil => simp [Json.wfFields]
  | cons p fs ih =>
    obtain ⟨k, v⟩ := p
    simp only [Json.wfFields, Bool.and_eq_true, ih, List.mem_cons]
    constructor
    · rintro ⟨h1, h2⟩ q hq
      rcases hq with rfl | hq
      · exact h1
      · exact h2 q hq
    · intro h
      exact ⟨h (k, v) (Or.inl rfl), fun q hq => h q (Or.inr hq)⟩

/-- `canonicalizeFields` is a map over the values. -/
theorem canonicalizeFields_eq_map (fs : List (String × Json)) :
    canonicalizeFields fs = fs.map (fun p => (p.1, canonicalize p.2)) := by
  induction fs with
  | nil => rfl
  | cons p fs ih =>
    obtain ⟨k, v⟩ := p
    simp [canonicalizeFields, ih]

/-- `canonicalizeFields` preserves the key list. -/
theorem map_fst_canonicalizeFields (fs : List (String × Json)) :
    (canonicalizeFields fs).map Prod.fst = fs.map Prod.fst := by
  rw [canonicalizeFields_eq_map, List.map_map]
  rfl

/-- Sorting an object's fields by key yields the same list for any two
permutations of the same fields, provided the keys are distinct. -/
theorem sortFields_eq_of_perm {l₁ l₂ : List (String × Json)}
    (hp : List.Perm l₁ l₂) (hnd : (l₁.map Prod.fst).Nodup) :
    sortFields l₁ = sortFields l₂ := by
  have hperm : List.Perm (sortFields l₁) (sortFields l₂) :=
    ((List.perm_insertionSort keyLe l₁).trans hp).trans
      (List.perm_insertionSort keyLe l₂).symm
  have hs₁ : List.Sorted keyLe (sortFields l₁) := List.sorted_insertionSort keyLe l₁
  have hs₂ : List.Sorted keyLe (sortFields l₂) := List.sorted_insertionSort keyLe l₂
  have hnd₁ : ((sortFields l₁).map Prod.fst).Nodup :=
    (((List.perm_insertionSort keyLe l₁).map Prod.fst).nodup_iff).mpr hnd
  have hnd₂ : ((sortFields l₂).map Prod.fst).Nodup := by
    refine ((hperm.map Prod.fst).nodup_iff).mp hnd₁
  have strict : ∀ {l : List (String × Json)},
      List.Sorted keyLe l → (l.map Prod.fst).Nodup → List.Sorted keyLt l := by
    intro l hs hn
    have hne : List.Pairwise (fun a b : String × Json => a.1 ≠ b.1) l :=
      (List.pairwise_map).mp hn
    exact (hs.and hne).imp (fun h => lt_of_le_of_ne h.1 h.2)
  exact List.eq_of_perm_of_sorted hperm (strict hs₁ hnd₁) (strict hs₂ hnd₂)

/-- Pointwise `KeyShuffleFields` preserves the key list. -/
theorem keyShuffleFields_keys {fs gs : List (String × Json)}
    (h : KeyShuffleFields fs gs) : fs.map Prod.fst = gs.map Prod.fst :=
  match h with
  | .nil => rfl
  | .cons _ h' => by simpa using keyShuffleFields_keys h'

mutual

/-- Canonicalization is invariant under key reordering (the heart of the hash
determinism property): two well-formed JSON values related by `KeyShuffle`
canonicalize identically. -/
theorem canonicalize_eq_of_shuffle {a b : Json} (h : KeyShuffle a b)
    (ha : Json.wf a = true) (hb : Json.wf b = true) :
    canonicalize a = canonicalize b :=
  match h with
  | .null => rfl
  | .bool _ => rfl
  | .num _ => rfl
  | .str _ => rfl
  | .arr hl => by
    simp only [Json.wf] at ha hb
    simp only [canonicalize]
    rw [canonicalizeList_eq_of_shuffle hl ha hb]
  | @KeyShuffle.obj fs gs gs' hf hperm => by
    simp only [Json.wf, Bool.and_eq_true] at ha hb
    have hkeys : gs'.map Prod.fst = fs.map Prod.fst :=
      (keyShuffleFields_keys hf).symm
    have hwf' : Json.wfFields gs' = true := by
      rw [wfFields_iff]
      intro p hp
      exact (wfFields_iff).mp hb.2 p (hperm.mem_iff.mp hp)
    have heq : canonicalizeFields fs = canonicalizeFields gs' :=
      canonicalizeFields_eq_of_shuffle hf ha.2 hwf'
    have hpermc : List.Perm (canonicalizeFields gs') (canonicalizeFields gs) := by
      rw [canonicalizeFields_eq_map, canonicalizeFields_eq_map]
      exact hperm.map _
    have hnd : ((canonicalizeFields fs).map Prod.fst).Nodup := by
      rw [map_fst_canonicalizeFields]
      exact nodupKeysB_nodup ha.1
    simp only [canonicalize]
    rw [heq, sortFields_eq_of_perm hpermc (by rw [← heq]; exact hnd)]

/-- Arrays canonicalize pointwise-equal under pointwise `KeyShuffle`. -/
theorem canonicalizeList_eq_of_shuffle {xs ys : List Json} (h : KeyShuffleList xs ys)
    (ha : Json.wfList xs = true) (hb : Json.wfList ys = true) :
    canonicalizeList xs = canonicalizeList ys :=
  match h with
  | .nil => rfl
  | .cons hx hxs => by
    simp only [Json.wfList, Bool.and_eq_true] at ha hb
    simp only [canonicalizeList]
    rw [canonicalize_eq_of_shuffle hx ha.1 hb.1,
        canonicalizeList_eq_of_shuffle hxs ha.2 hb.2]

/-- Field lists canonicalize equal under pointwise `KeyShuffle` of values. -/
theorem canonicalizeFields_eq_of_shuffle {fs gs : List (String × Json)}
    (h : KeyShuffleFields fs gs)
    (ha : Json.wfFields fs = true) (hb : Json.wfFields gs = true) :
    canonicalizeFields fs = canonicalizeFields gs :=
  match h with
  | .nil => rfl
  | .cons hv hfs => by
    simp only [Json.wfFields, Bool.and_eq_true] at ha hb
    simp only [canonicalizeFields]
    rw [canonicalize_eq_of_shuffle hv ha.1 hb.1,
        canonicalizeFields_eq_of_shuffle hfs ha.2 hb.2]

end

mutual

/-- `KeyShuffle` is reflexive. -/
theorem keyShuffle_refl : ∀ j : Json, KeyShuffle j j
  | .null => .null
  | .bool b => .bool b
  | .num n => .num n
  | .str s => .str s
  | .arr xs => .arr (keyShuffleList_refl xs)
  | .obj fs => .obj (keyShuffleFields_refl fs) (List.Perm.refl fs)

/-- `KeyShuffleList` is reflexive. -/
theorem keyShuffleList_refl : ∀ xs : List Json, KeyShuffleList xs xs
  | [] => .nil
  | x :: xs => .cons (keyShuffle_refl x) (keyShuffleList_refl xs)

/-- `KeyShuffleFields` is reflexive. -/
theorem keyShuffleFields_refl : ∀ fs : List (String × Json), KeyShuffleFields fs fs
  | [] => .nil
  | (_, v) :: fs => .cons (keyShuffle_refl v) (keyShuffleFields_refl fs)

end

/-! ### Shape facts about the hex digest -/

/-- A hex word renders as exactly eight characters. -/
theorem hexWord_length (x : Nat) : (hexWord x).length = 8 := rfl

/-- The hex digest of any SHA-256 state has exactly 64 characters. -/
theorem digestHex_length (st : Sha256State) : (digestHex st).length = 64 := by
  simp [digestHex, String.length_append, hexWord_length]

/-- `stableHashContext` always returns a 64-character string. -/
theorem stableHashContext_length (e : Json) : (stableHashContext e).length = 64 :=
  digestHex_length _

/-! ### Substring search (for stating "the error message contains ...") -/

/-- `listStartsWith l p`: `p` is a prefix of `l`. -/
def listStartsWith : List Char → List Char → Bool
  | _, [] => true
  | [], _ :: _ => false
  | a :: as, b :: bs => a == b && listStartsWith as bs

/-- `listHasSub l p`: `p` occurs contiguously in `l`. -/
def listHasSub : List Char → List Char → Bool
  | [], p => listStartsWith [] p
  | l@(_ :: t), p => listStartsWith l p || listHasSub t p

/-- `strHasSub s pat`: `pat` occurs in `s`. -/
def strHasSub (s pat : String) : Bool := listHasSub s.data pat.data

/-- A prefix of `a` is still a prefix of `a ++ b`. -/
theorem listStartsWith_append_of {a p : List Char} (b : List Char)
    (h : listStartsWith a p = true) : listStartsWith (a ++ b) p = true := by
  induction p generalizing a with
  | nil => cases a ++ b <;> rfl
  | cons c cs ih =>
    cases a with
    | nil => simp [listStartsWith] at h
    | cons a' as =>
      simp only [listStartsWith, Bool.and_eq_true] at h ⊢
      exact ⟨h.1, ih h.2⟩

/-- A prefix occurrence is an occurrence. -/
theorem listHasSub_of_startsWith {l p : List Char} (h : listStartsWith l p = true) :
    listHasSub l p = true := by
  cases l with
  | nil => simpa [listHasSub] using h
  | cons a t => simp [listHasSub, h]

/-! ## Domain model (src/models/states.ts) -/

/-- Job lifecycle states (`JobStates`). -/
inductive JobState where
  | QUEUED | RUNNING | WAITING_ON_ANSWER | SUCCEEDED | FAILED | CANCELED | EXPIRED | STALE
deriving Repr, DecidableEq

/-- Terminal-state test, translated from `isTerminalState`. -/
def isTerminalState : JobState → Bool
  | .SUCCEEDED => true
  | .FAILED => true
  | .CANCELED => true
  | .EXPIRED => true
  | _ => false

/-- Failure reason codes (`FailReasons`). -/
inductive FailReason where
  | BAD_ARTIFACTS | CONFLICT | POLICY | EXECUTOR_ERROR | TIMEOUT | INTERNAL_ERROR
deriving Repr, DecidableEq

/-- Priority levels (`Priorities`). -/
inductive Priority where
  | P0 | P1 | P2
deriving Repr, DecidableEq

/-- Numeric priority used for ordering, translated from `priorityToNumber`. -/
def priorityToNumber : Priority → Nat
  | .P0 => 0
  | .P1 => 1
  | .P2 => 2

/-- State transition validation, translated from `canTransition` in
src/models/states.ts. -/
def canTransition (src dst : JobState) : Bool :=
  if isTerminalState src then false
  else
    match src with
    | .QUEUED => dst = .RUNNING || dst = .CANCELED || dst = .EXPIRED
    | .RUNNING =>
        dst = .SUCCEEDED || dst = .FAILED || dst = .CANCELED || dst = .EXPIRED ||
        dst = .STALE || dst = .WAITING_ON_ANSWER
    | .WAITING_ON_ANSWER =>
        dst = .RUNNING || dst = .FAILED || dst = .CANCELED || dst = .EXPIRED
    | .STALE => dst = .RUNNING || dst = .FAILED || dst = .EXPIRED
    | _ => false

/-- The §4.3 transition table of the specification, stated independently of
the source for comparison with `canTransition`. -/
def specTransitionTable : JobState → JobState → Prop
  | .QUEUED, dst => dst = .RUNNING ∨ dst = .CANCELED ∨ dst = .EXPIRED
  | .RUNNING, dst =>
      dst = .SUCCEEDED ∨ dst = .FAILED ∨ dst = .CANCELED ∨ dst = .EXPIRED ∨
      dst = .STALE ∨ dst = .WAITING_ON_ANSWER
  | .WAITING_ON_ANSWER, dst => dst = .RUNNING ∨ dst = .FAILED ∨ dst = .CANCELED ∨ dst = .EXPIRED
  | .STALE, dst => dst = .RUNNING ∨ dst = .FAILED ∨ dst = .EXPIRED
  | _, _ => False

/-- Ask types (`AskTypeSchema`). -/
inductive AskType where
  | CLARIFICATION | RESOURCE_FETCH | POLICY_DECISION | APPROVAL | CHOICE
deriving Repr, DecidableEq

/-- Ask statuses (`AskStatusSchema`). -/
inductive AskStatus where
  | PENDING | ANSWERED | REJECTED | TIMEOUT | ERROR
deriving Repr, DecidableEq

/-- Answer statuses (`AnswerStatusSchema`). -/
inductive AnswerStatus where
  | ANSWERED | REJECTED | TIMEOUT | ERROR
deriving Repr, DecidableEq

/-- The `askStatus` computed in `recordAnswer`
(`answerStatus === 'ANSWERED' ? 'ANSWERED' : answerStatus`). -/
def answerToAskStatus : AnswerStatus → AskStatus
  | .ANSWERED => .ANSWERED
  | .REJECTED => .REJECTED
  | .TIMEOUT => .TIMEOUT
  | .ERROR => .ERROR

/-! ## JobSpec (src/models/schemas.ts types; runtime refinements omitted where
no claim depends on them) -/

/-- `repo.type`. -/
inductive RepoType where
  | localRepo | git
deriving Repr, DecidableEq

/-- `RepoSchema`. -/
structure Repo where
  typ : RepoType
  path : Option String := none
  url : Option String := none
  baseBranch : String
  baselineCommit : String
deriving Repr, DecidableEq

/-- `TaskSchema`. -/
structure TaskDesc where
  title : String
  description : String
  acceptance : List String
deriving Repr, DecidableEq

/-- `ScopeSchema`. -/
structure Scope where
  readPaths : List String
  fileGlobs : Option (List String) := none
  disallowReformatting : Bool := false
deriving Repr, DecidableEq

/-- `ExecutionSchema` (`sandbox`/`askPolicy` are fixed literals and omitted). -/
structure Execution where
  preferredModel : String := "gpt-4"
  timeoutS : Option Nat := none
  priority : Priority := .P1
  ttlS : Nat := 3600
deriving Repr, DecidableEq

/-- `NotifySchema`. -/
structure Notify where
  enablePr : Bool := false
  webhook : Option String := none
deriving Repr, DecidableEq

/-- `JobSpecSchema` (`outputContract` is the fixed triple DIFF/TEST_PLAN/NOTES
and carried implicitly; `context` is kept as a JSON value). -/
structure JobSpec where
  repo : Repo
  task : TaskDesc
  scope : Scope
  context : Option Json := none
  execution : Execution
  idempotencyKey : String
  notify : Option Notify := none
deriving Repr

/-! ## Database rows and state

The SQLite tables from src/db/connection.ts and the migration, with the
columns the repositories read and write. The database is a record of row
lists; every operation threads it explicitly. -/

/-- A row of the `jobs` table (`JobRow` in src/db/jobs-repository.ts,
merged with its parsed `JobRecord` view: the JSON spec columns are kept as
the typed spec). -/
structure JobRow where
  id : String
  idempotencyKey : String
  state : JobState
  stateVersion : Nat
  priority : Priority
  createdAt : Nat
  startedAt : Option Nat := none
  finishedAt : Option Nat := none
  ttlS : Nat
  heartbeatAt : Option Nat := none
  leaseOwner : Option String := none
  leaseExpiresAt : Option Nat := none
  spec : JobSpec
  summary : Option String := none
  reasonCode : Option FailReason := none
deriving Repr

/-- `AskConstraintsSchema`. -/
structure AskConstraints where
  timeout_s : Option Nat := none
  max_tokens : Option Nat := none
  allowed_tools : Option (List String) := none
deriving Repr, DecidableEq

/-- A row of the `asks` table (`AskRow` in src/db/asks-repository.ts; the
table persists the context hash but has no envelope column). -/
structure AskRow where
  askId : String
  jobId : String
  stepId : String
  askType : AskType
  prompt : String
  contextHash : String
  constraints : Option AskConstraints := none
  roleId : Option String := none
  meta : Option Json := none
  createdAt : Nat
  status : AskStatus
deriving Repr

/-- `AttestationSchema`. -/
structure Attestation where
  context_hash : String
  role_id : String
  role_version : String
  model : String
  prompt_fingerprint : String
  tools_used : List String
  policy_version : String
deriving Repr, DecidableEq

/-- A row of the `answers` table (`AnswerRow` in
src/db/answers-repository.ts). -/
structure AnswerRow where
  askId : String
  jobId : String
  stepId : String
  status : AnswerStatus
  answerText : Option String := none
  answerJson : Option Json := none
  attestation : Option Attestation := none
  artifacts : Option (List String) := none
  policyTrace : Option Json := none
  cacheable : Bool := true
  askBack : Option String := none
  error : Option String := none
  createdAt : Nat
deriving Repr

/-- A row of the `events` table (src/db/events-repository.ts). -/
structure EventRow where
  id : Nat
  jobId : String
  ts : Nat
  typ : String
  payload : Json
deriving Repr

/-- A row of the `decision_cache` table
(src/db/decision-cache-repository.ts). -/
structure CacheRow where
  decisionKey : String
  answerJson : Option Json := none
  answerText : Option String := none
  policyTrace : Option Json := none
  createdAt : Nat
  ttlSeconds : Nat
deriving Repr

/-- The database: one list of rows per table. -/
structure DB where
  jobs : List JobRow := []
  asks : List AskRow := []
  answers : List AnswerRow := []
  events : List EventRow := []
  decisionCache : List CacheRow := []
deriving Repr

/-- Result-or-error, the `{ok:true,value} | {ok:false,error}` union. -/
abbrev Result (α : Type) := Except String α

/-! ## Jobs repository (src/db/jobs-repository.ts) -/

/-- `CreateJobParams`. -/
structure CreateJobParams where
  id : String
  spec : JobSpec
  priority : Priority
  ttlS : Nat

/-- `UpdateJobStateParams`. -/
structure UpdateJobStateParams where
  id : String
  state : JobState
  reasonCode : Option FailReason := none
  summary : Option String := none

namespace JobsRepository

/-- `getById`: `SELECT * FROM jobs WHERE id = ?`, error when absent. -/
def getById (db : DB) (id : String) : Result JobRow :=
  match db.jobs.find? (fun r => r.id = id) with
  | some r => .ok r
  | none => .error ("Job not found: " ++ id)

/-- `getByIdempotencyKey`: plain read, `Ok null` when absent. -/
def getByIdempotencyKey (db : DB) (key : String) : Result (Option JobRow) :=
  .ok (db.jobs.find? (fun r => r.idempotencyKey = key))

/-- `create`: INSERT with `state='QUEUED'`, `state_version=0`; the `jobs`
table declares `id` PRIMARY KEY and `idempotency_key UNIQUE`, so the INSERT
throws (and `create` returns the error) when either collides. -/
def create (db : DB) (now : Nat) (p : CreateJobParams) : Result JobRow × DB :=
  if db.jobs.any (fun r => r.id = p.id || r.idempotencyKey = p.spec.idempotencyKey) then
    (.error "Failed to create job: UNIQUE constraint failed", db)
  else
    let row : JobRow :=
      { id := p.id, idempotencyKey := p.spec.idempotencyKey, state := .QUEUED,
        stateVersion := 0, priority := p.priority, createdAt := now, ttlS := p.ttlS,
        spec := p.spec }
    (.ok row, { db with jobs := db.jobs ++ [row] })

/-- `updateState`: bumps `state_version`, `summary = COALESCE(@summary,
summary)`, `reason_code = @reasonCode` (unconditionally overwritten),
`finished_at = now` iff the new state is terminal; `WHERE id = @id`, error
when no row matched. -/
def updateState (db : DB) (now : Nat) (p : UpdateJobStateParams) : Result Unit × DB :=
  let changes := db.jobs.countP (fun r => r.id = p.id)
  if changes = 0 then
    (.error ("Job not found: " ++ p.id), db)
  else
    let jobs' := db.jobs.map (fun r =>
      if r.id = p.id then
        { r with
          state := p.state,
          stateVersion := r.stateVersion + 1,
          summary := match p.summary with | some s => some s | none => r.summary,
          reasonCode := p.reasonCode,
          finishedAt := if isTerminalState p.state then some now else r.finishedAt }
      else r)
    (.ok (), { db with jobs := jobs' })

/-- The `WHERE state = 'QUEUED' AND (lease_expires_at IS NULL OR
lease_expires_at < now)` filter of `acquireLease`'s SELECT. -/
def leaseAvailable (now : Nat) (r : JobRow) : Bool :=
  r.state = .QUEUED &&
    (match r.leaseExpiresAt with
     | none => true
     | some t => t < now)

/-- `a` precedes `b` in `ORDER BY priority ASC, created_at ASC`. -/
def leaseBefore (a b : JobRow) : Bool :=
  priorityToNumber a.priority < priorityToNumber b.priority ||
    (priorityToNumber a.priority = priorityToNumber b.priority && a.createdAt < b.createdAt)

/-- `ORDER BY priority ASC, created_at ASC LIMIT 1` over a row list, keeping
the earliest row on ties. -/
def selectOldest : List JobRow → Option JobRow
  | [] => none
  | r :: rs =>
    match selectOldest rs with
    | none => some r
    | some best => if leaseBefore best r then some best else some r

/-- `acquireLease`: one transaction that SELECTs the oldest available QUEUED
job and UPDATEs it to RUNNING with the lease fields, guarded by
`WHERE state = 'QUEUED'`. -/
def acquireLease (db : DB) (now : Nat) (owner : String) (leaseTtlMs : Nat) :
    Result (Option String) × DB :=
  match selectOldest (db.jobs.filter (leaseAvailable now)) with
  | none => (.ok none, db)
  | some cand =>
    let upd := fun (r : JobRow) =>
      if r.id = cand.id ∧ r.state = .QUEUED then
        { r with
          state := .RUNNING,
          stateVersion := r.stateVersion + 1,
          leaseOwner := some owner,
          leaseExpiresAt := some (now + leaseTtlMs),
          startedAt := some now,
          heartbeatAt := some now }
      else r
    let changes := db.jobs.countP (fun r => r.id = cand.id ∧ r.state = .QUEUED)
    ((if 0 < changes then .ok (some cand.id) else .ok none),
     { db with jobs := db.jobs.map upd })

/-- `renewLease`: updates `heartbeat_at, lease_expires_at` only where
`id`, `lease_owner` match and `state = 'RUNNING'`; returns whether any row
changed. -/
def renewLease (db : DB) (now : Nat) (id owner : String) (leaseTtlMs : Nat) :
    Result Bool × DB :=
  let matchRow := fun (r : JobRow) =>
    r.id = id ∧ r.leaseOwner = some owner ∧ r.state = .RUNNING
  let changes := db.jobs.countP (fun r => matchRow r)
  let jobs' := db.jobs.map (fun r =>
    if matchRow r then
      { r with leaseExpiresAt := some (now + leaseTtlMs), heartbeatAt := some now }
    else r)
  (.ok (0 < changes), { db with jobs := jobs' })

/-- `releaseLease`: clears `lease_owner, lease_expires_at` where `id` and
`lease_owner` match. -/
def releaseLease (db : DB) (id owner : String) : Result Unit × DB :=
  let jobs' := db.jobs.map (fun r =>
    if r.id = id ∧ r.leaseOwner = some owner then
      { r with leaseOwner := none, leaseExpiresAt := none }
    else r)
  (.ok (), { db with jobs := jobs' })

end JobsRepository

/-! ## Asks repository (src/db/asks-repository.ts) -/

/-- `CreateAskParams` as built by `JobManager.createAsk`: the caller passes
the context envelope along, but the repository's INSERT has no
`context_envelope` column and drops it. -/
structure CreateAskParams where
  askId : String
  jobId : String
  stepId : String
  askType : AskType
  prompt : String
  contextHash : String
  contextEnvelope : Json
  constraints : Option AskConstraints := none
  roleId : Option String := none
  meta : Option Json := none

namespace AsksRepository

/-- `getById`: error when absent. -/
def getById (db : DB) (askId : String) : Result AskRow :=
  match db.asks.find? (fun r => r.askId = askId) with
  | some r => .ok r
  | none => .error ("Ask not found: " ++ askId)

/-- `create`: INSERT with `status='PENDING'`; `ask_id` is the primary key and
`job_id` references `jobs(id)` (`foreign_keys = ON`). The INSERT stores
`ask_id, job_id, step_id, ask_type, prompt, context_hash, constraints_json,
role_id, meta_json, created_at, status` — the context envelope is not among
the columns. -/
def create (db : DB) (now : Nat) (p : CreateAskParams) : Result AskRow × DB :=
  if db.asks.any (fun r => r.askId = p.askId) then
    (.error "Failed to create ask: UNIQUE constraint failed", db)
  else if !(db.jobs.any (fun r => r.id = p.jobId)) then
    (.error "Failed to create ask: FOREIGN KEY constraint failed", db)
  else
    let row : AskRow :=
      { askId := p.askId, jobId := p.jobId, stepId := p.stepId, askType := p.askType,
        prompt := p.prompt, contextHash := p.contextHash, constraints := p.constraints,
        roleId := p.roleId, meta := p.meta, createdAt := now, status := .PENDING }
    (.ok row, { db with asks := db.asks ++ [row] })

/-- `updateStatus`: `UPDATE asks SET status = @status WHERE ask_id = @askId`,
error when no row matched. -/
def updateStatus (db : DB) (askId : String) (status : AskStatus) : Result Unit × DB :=
  let changes := db.asks.countP (fun r => r.askId = askId)
  if changes = 0 then
    (.error ("Ask not found: " ++ askId), db)
  else
    (.ok (), { db with asks := db.asks.map (fun r =>
      if r.askId = askId then { r with status := status } else r) })

/-- `listByJob`, ordered by `created_at ASC` (insertion order here). -/
def listByJob (db : DB) (jobId : String) : Result (List AskRow) :=
  .ok (db.asks.filter (fun r => r.jobId = jobId))

end AsksRepository

/-! ## Answers repository (src/db/answers-repository.ts) -/

/-- `CreateAnswerParams`. -/
structure CreateAnswerParams where
  askId : String
  jobId : String
  stepId : String
  status : AnswerStatus
  answerText : Option String := none
  answerJson : Option Json := none
  attestation : Option Attestation := none
  artifacts : Option (List String) := none
  policyTrace : Option Json := none
  cacheable : Option Bool := none
  askBack : Option String := none
  error : Option String := none

namespace AnswersRepository

/-- `getByAskId`: `Ok null` when absent. -/
def getByAskId (db : DB) (askId : String) : Result (Option AnswerRow) :=
  .ok (db.answers.find? (fun r => r.askId = askId))

/-- `create`: INSERT with `ON CONFLICT(ask_id) DO UPDATE` replacing `status`,
the answer fields, `cacheable`, `error` and `created_at` (but not `job_id`
and `step_id`, which the conflict clause does not list); `cacheable` defaults
to true when absent. -/
def create (db : DB) (now : Nat) (p : CreateAnswerParams) : Result AnswerRow × DB :=
  let cacheB := p.cacheable.getD true
  match db.answers.find? (fun r => r.askId = p.askId) with
  | some old =>
    let row : AnswerRow :=
      { old with
        status := p.status, answerText := p.answerText, answerJson := p.answerJson,
        attestation := p.attestation, artifacts := p.artifacts,
        policyTrace := p.policyTrace, cacheable := cacheB, askBack := p.askBack,
        error := p.error, createdAt := now }
    (.ok row, { db with answers := db.answers.map (fun r =>
      if r.askId = p.askId then row else r) })
  | none =>
    if !(db.asks.any (fun r => r.askId = p.askId)) ||
       !(db.jobs.any (fun r => r.id = p.jobId)) then
      (.error "Failed to create answer: FOREIGN KEY constraint failed", db)
    else
      let row : AnswerRow :=
        { askId := p.askId, jobId := p.jobId, stepId := p.stepId, status := p.status,
          answerText := p.answerText, answerJson := p.answerJson,
          attestation := p.attestation, artifacts := p.artifacts,
          policyTrace := p.policyTrace, cacheable := cacheB, askBack := p.askBack,
          error := p.error, createdAt := now }
      (.ok row, { db with answers := db.answers ++ [row] })

end AnswersRepository

/-! ## Events repository (src/db/events-repository.ts) -/

namespace EventsRepository

/-- `create`: append-only audit row with an AUTOINCREMENT id; `job_id`
references `jobs(id)`. -/
def create (db : DB) (now : Nat) (jobId typ : String) (payload : Json) :
    Result EventRow × DB :=
  if !(db.jobs.any (fun r => r.id = jobId)) then
    (.error "Failed to create event: FOREIGN KEY constraint failed", db)
  else
    let row : EventRow :=
      { id := db.events.length + 1, jobId := jobId, ts := now, typ := typ,
        payload := payload }
    (.ok row, { db with events := db.events ++ [row] })

end EventsRepository

/-! ## Decision cache repository (src/db/decision-cache-repository.ts) -/

/-- `UpsertDecisionParams`. -/
structure UpsertDecisionParams where
  decisionKey : String
  answerJson : Option Json := none
  answerText : Option String := none
  policyTrace : Option Json := none
  ttlSeconds : Nat

namespace DecisionCacheRepository

/-- `get`: `Ok null` when absent. -/
def get (db : DB) (decisionKey : String) : Result (Option CacheRow) :=
  .ok (db.decisionCache.find? (fun r => r.decisionKey = decisionKey))

/-- `upsert`: `INSERT ... ON CONFLICT(decision_key) DO UPDATE` replacing every
field including `created_at`. -/
def upsert (db : DB) (now : Nat) (p : UpsertDecisionParams) : Result CacheRow × DB :=
  let row : CacheRow :=
    { decisionKey := p.decisionKey, answerJson := p.answerJson,
      answerText := p.answerText, policyTrace := p.policyTrace,
      createdAt := now, ttlSeconds := p.ttlSeconds }
  if db.decisionCache.any (fun r => r.decisionKey = p.decisionKey) then
    (.ok row, { db with decisionCache := db.decisionCache.map (fun r =>
      if r.decisionKey = p.decisionKey then row else r) })
  else
    (.ok row, { db with decisionCache := db.decisionCache ++ [row] })

/-- `purgeExpired`: `DELETE FROM decision_cache WHERE created_at +
(ttl_seconds * 1000) < @now`, returning the number of rows removed. -/
def purgeExpired (db : DB) (now : Nat) : Result Nat × DB :=
  let keep := db.decisionCache.filter (fun r => !(r.createdAt + r.ttlSeconds * 1000 < now))
  (.ok (db.decisionCache.length - keep.length), { db with decisionCache := keep })

end DecisionCacheRepository

/-! ## Payload validation (src/models/schemas.ts, zod refinements) -/

/-- Hexadecimal character. -/
def isHexCh (c : Char) : Bool :=
  c.isDigit || ('a' ≤ c && c ≤ 'f') || ('A' ≤ c && c ≤ 'F')

/-- The shape `zod`'s `.uuid()` accepts: 8-4-4-4-12 hex groups. -/
def isUuid (s : String) : Bool :=
  let cs := s.data
  cs.length = 36 &&
  (List.range 36).all (fun i =>
    let c := cs.getD i ' '
    if i = 8 || i = 13 || i = 18 || i = 23 then c = '-' else isHexCh c)

/-- Field lookup in a JSON object. -/
def jsonLookup (j : Json) (key : String) : Option Json :=
  match j with
  | .obj fs => (fs.find? (fun p => p.1 = key)).map Prod.snd
  | _ => none

/-- Is the value a JSON object? -/
def Json.isObj : Json → Bool
  | .obj _ => true
  | _ => false

/-- Is the value a JSON string? -/
def Json.isStr : Json → Bool
  | .str _ => true
  | _ => false

/-- An optional field, when present, satisfies `p`. -/
def optField (j : Json) (key : String) (p : Json → Bool) : Bool :=
  match jsonLookup j key with
  | some v => p v
  | none => true

/-- `ContextEnvelopeSchema`: an object with a `job_snapshot` object (whose
optional `repo`, `commit_sha`, `env_profile`, `policy_version` are strings),
a string `role`, and optional `facts` / `tool_caps` objects. -/
def isEnvelope (j : Json) : Bool :=
  j.isObj &&
  (match jsonLookup j "job_snapshot" with
   | some snap =>
     snap.isObj &&
     optField snap "repo" Json.isStr && optField snap "commit_sha" Json.isStr &&
     optField snap "env_profile" Json.isStr && optField snap "policy_version" Json.isStr
   | none => false) &&
  (match jsonLookup j "role" with
   | some r => r.isStr
   | none => false) &&
  optField j "facts" Json.isObj &&
  optField j "tool_caps" Json.isObj

/-- `AskPayloadSchema` (the `type:"Ask"` discriminator is implicit). -/
structure AskPayload where
  ask_id : String
  job_id : String
  step_id : String
  ask_type : AskType
  prompt : String
  context_hash : String
  context_envelope : Json
  constraints : Option AskConstraints := none
  role_id : Option String := none
  meta : Option Json := none
deriving Repr

/-- `AskConstraintsSchema` refinements: positive integers when present. -/
def validConstraints : Option AskConstraints → Bool
  | none => true
  | some c => (c.timeout_s.all (fun t => 0 < t)) && (c.max_tokens.all (fun t => 0 < t))

/-- `AskPayloadSchema.safeParse` succeeding. -/
def validAskPayload (p : AskPayload) : Bool :=
  isUuid p.ask_id && 0 < p.prompt.length && 0 < p.context_hash.length &&
  isEnvelope p.context_envelope && validConstraints p.constraints &&
  (match p.meta with | some m => m.isObj | none => true)

/-- `AnswerPayloadSchema` (the `type:"Answer"` discriminator is implicit). -/
structure AnswerPayload where
  ask_id : String
  job_id : String
  step_id : String
  status : AnswerStatus
  answer_text : Option String := none
  answer_json : Option Json := none
  attestation : Option Attestation := none
  artifacts : Option (List String) := none
  policy_trace : Option Json := none
  cacheable : Option Bool := none
  ask_back : Option String := none
  error : Option String := none
deriving Repr

/-- `AnswerPayloadSchema.safeParse` succeeding (`ask_id` is the only refined
field; everything else is typed). -/
def validAnswerPayload (p : AnswerPayload) : Bool := isUuid p.ask_id

/-! ## Job Manager (src/core/job-manager.ts) -/

/-- Uppercase state name, as stored in the `state` column. -/
def JobState.name : JobState → String
  | .QUEUED => "QUEUED"
  | .RUNNING => "RUNNING"
  | .WAITING_ON_ANSWER => "WAITING_ON_ANSWER"
  | .SUCCEEDED => "SUCCEEDED"
  | .FAILED => "FAILED"
  | .CANCELED => "CANCELED"
  | .EXPIRED => "EXPIRED"
  | .STALE => "STALE"

/-- `state.toLowerCase()` used in the `job.state.*` event type. -/
def JobState.lowerName : JobState → String
  | .QUEUED => "queued"
  | .RUNNING => "running"
  | .WAITING_ON_ANSWER => "waiting_on_answer"
  | .SUCCEEDED => "succeeded"
  | .FAILED => "failed"
  | .CANCELED => "canceled"
  | .EXPIRED => "expired"
  | .STALE => "stale"

/-- Priority name, for event payloads. -/
def Priority.name : Priority → String
  | .P0 => "P0"
  | .P1 => "P1"
  | .P2 => "P2"

/-- Reason code name, for event payloads. -/
def FailReason.name : FailReason → String
  | .BAD_ARTIFACTS => "BAD_ARTIFACTS"
  | .CONFLICT => "CONFLICT"
  | .POLICY => "POLICY"
  | .EXECUTOR_ERROR => "EXECUTOR_ERROR"
  | .TIMEOUT => "TIMEOUT"
  | .INTERNAL_ERROR => "INTERNAL_ERROR"

/-- `cancel`'s response shape `{ok, state}`. -/
structure CancelResponse where
  ok : Bool
  state : JobState
deriving Repr, DecidableEq

namespace JobManager

/-- Options of `JobManager.updateState`. -/
structure UpdateOptions where
  reasonCode : Option FailReason := none
  summary : Option String := none

/-- `JobManager.updateState`: performs the repository write (which has no
transition-table guard), then logs a `job.state.<state>` event (failures
only warned) and emits; translated from src/core/job-manager.ts. -/
def updateState (db : DB) (now : Nat) (jobId : String) (state : JobState)
    (options : UpdateOptions := {}) : Result Unit × DB :=
  match JobsRepository.updateState db now
      { id := jobId, state := state, reasonCode := options.reasonCode,
        summary := options.summary } with
  | (.error e, db') => (.error e, db')
  | (.ok _, db') =>
    let payload : Json := .obj
      ([("state", .str state.name)] ++
       (match options.reasonCode with
        | some rc => [("reasonCode", Json.str rc.name)]
        | none => []) ++
       [("timestamp", .num now)])
    let step := EventsRepository.create db' now jobId ("job.state." ++ state.lowerName) payload
    (.ok (), step.2)

/-- `submit`'s create path: create the job, log `job.submitted` (failure only
warned), return the new id. -/
def submitCreate (db : DB) (now : Nat) (newId : String) (spec : JobSpec) :
    Result String × DB :=
  match JobsRepository.create db now
      { id := newId, spec := spec, priority := spec.execution.priority,
        ttlS := spec.execution.ttlS } with
  | (.error e, db') => (.error e, db')
  | (.ok _, db') =>
    let payload : Json := .obj
      [("idempotencyKey", .str spec.idempotencyKey),
       ("priority", .str spec.execution.priority.name)]
    let step := EventsRepository.create db' now newId "job.submitted" payload
    (.ok newId, step.2)

/-- `submit`: look up by idempotency key; return the existing job's id when it
is non-terminal; otherwise create a new job (the freshly generated id is a
parameter, standing for `generateJobId()`). -/
def submit (db : DB) (now : Nat) (newId : String) (spec : JobSpec) :
    Result String × DB :=
  match JobsRepository.getByIdempotencyKey db spec.idempotencyKey with
  | .error e => (.error e, db)
  | .ok (some existing) =>
    if !(isTerminalState existing.state) then
      (.ok existing.id, db)
    else
      submitCreate db now newId spec
  | .ok none => submitCreate db now newId spec

/-- `cancel`: `{ok:false, state}` on a terminal job; otherwise a direct
repository write to CANCELED with summary "Canceled by user" and a
`job.canceled` event. -/
def cancel (db : DB) (now : Nat) (jobId : String) : Result CancelResponse × DB :=
  match JobsRepository.getById db jobId with
  | .error e => (.error e, db)
  | .ok job =>
    if isTerminalState job.state then
      (.ok { ok := false, state := job.state }, db)
    else
      match JobsRepository.updateState db now
          { id := jobId, state := .CANCELED, summary := some "Canceled by user" } with
      | (.error e, db') => (.error e, db')
      | (.ok _, db') =>
        let step := EventsRepository.create db' now jobId "job.canceled"
          (.obj [("canceledAt", .num now)])
        (.ok { ok := true, state := .CANCELED }, step.2)

/-- `createAsk`: validate the payload, require the job to be RUNNING, store
the Ask, transition the job to WAITING_ON_ANSWER, log `ask.created` and emit. -/
def createAsk (db : DB) (now : Nat) (p : AskPayload) : Result AskRow × DB :=
  if !(validAskPayload p) then
    (.error "Invalid Ask payload", db)
  else
    match JobsRepository.getById db p.job_id with
    | .error e => (.error e, db)
    | .ok job =>
      if job.state ≠ .RUNNING then
        (.error ("Cannot create Ask while job is in state " ++ job.state.name), db)
      else
        match AsksRepository.create db now
            { askId := p.ask_id, jobId := p.job_id, stepId := p.step_id,
              askType := p.ask_type, prompt := p.prompt, contextHash := p.context_hash,
              contextEnvelope := p.context_envelope, constraints := p.constraints,
              roleId := p.role_id, meta := p.meta } with
        | (.error e, db1) => (.error e, db1)
        | (.ok row, db1) =>
          match updateState db1 now p.job_id .WAITING_ON_ANSWER with
          | (.error e, db2) => (.error e, db2)
          | (.ok _, db2) =>
            let step := EventsRepository.create db2 now p.job_id "ask.created"
              (.obj [("askId", .str p.ask_id), ("stepId", .str p.step_id),
                     ("createdAt", .num now)])
            (.ok row, step.2)

/-- `recordAnswer`: validate, require the Ask to exist, upsert the Answer,
set the Ask status, log `answer.recorded`, then transition the job according
to the answer status. -/
def recordAnswer (db : DB) (now : Nat) (p : AnswerPayload) : Result AnswerRow × DB :=
  if !(validAnswerPayload p) then
    (.error "Invalid Answer payload", db)
  else
    match AsksRepository.getById db p.ask_id with
    | .error e => (.error e, db)
    | .ok _ =>
      match AnswersRepository.create db now
          { askId := p.ask_id, jobId := p.job_id, stepId := p.step_id,
            status := p.status, answerText := p.answer_text,
            answerJson := p.answer_json, attestation := p.attestation,
            artifacts := p.artifacts, policyTrace := p.policy_trace,
            cacheable := p.cacheable, askBack := p.ask_back, error := p.error } with
      | (.error e, db1) => (.error e, db1)
      | (.ok rec, db1) =>
        match AsksRepository.updateStatus db1 p.ask_id (answerToAskStatus p.status) with
        | (.error e, db2) => (.error e, db2)
        | (.ok _, db2) =>
          let step := EventsRepository.create db2 now p.job_id "answer.recorded"
            (.obj [("askId", .str p.ask_id), ("stepId", .str p.step_id),
                   ("recordedAt", .num now)])
          let db3 := step.2
          match p.status with
          | .ANSWERED =>
            match updateState db3 now p.job_id .RUNNING with
            | (.error e, db4) => (.error e, db4)
            | (.ok _, db4) => (.ok rec, db4)
          | .REJECTED =>
            match updateState db3 now p.job_id .FAILED
                { reasonCode := some .POLICY,
                  summary := some (((p.answer_text).orElse (fun _ => p.error)).getD
                    "Ask rejected by scheduler") } with
            | (.error e, db4) => (.error e, db4)
            | (.ok _, db4) => (.ok rec, db4)
          | .TIMEOUT =>
            match updateState db3 now p.job_id .FAILED
                { reasonCode := some .TIMEOUT,
                  summary := some (p.error.getD "Ask timed out waiting for response") } with
            | (.error e, db4) => (.error e, db4)
            | (.ok _, db4) => (.ok rec, db4)
          | .ERROR =>
            match updateState db3 now p.job_id .FAILED
                { reasonCode := some .EXECUTOR_ERROR,
                  summary := some (p.error.getD "Ask execution failed") } with
            | (.error e, db4) => (.error e, db4)
            | (.ok _, db4) => (.ok rec, db4)

/-- `getAnswer`: read-through to the answers repository. -/
def getAnswer (db : DB) (askId : String) : Result (Option AnswerRow) :=
  AnswersRepository.getByAskId db askId

/-- `getDecisionCache`: read-through to the decision-cache repository. -/
def getDecisionCache (db : DB) (decisionKey : String) : Result (Option CacheRow) :=
  DecisionCacheRepository.get db decisionKey

/-- `putDecisionCache`: write-through to the decision-cache repository. -/
def putDecisionCache (db : DB) (now : Nat) (p : UpsertDecisionParams) :
    Result CacheRow × DB :=
  DecisionCacheRepository.upsert db now p

end JobManager

/-! ## Ask/Answer HTTP bridge: long-poll (src/services/ask-answer.ts) -/

/-- JavaScript `Number.parseInt(s, 10)` on a string: skip leading whitespace,
optional sign, a leading digit run; `NaN` (here `none`) when no digit. -/
def parseIntPrefix (s : String) : Option Int :=
  let cs := s.data.dropWhile (fun c => c.isWhitespace)
  let signed : Int × List Char :=
    match cs with
    | '-' :: t => (-1, t)
    | '+' :: t => (1, t)
    | t => (1, t)
  let digits := signed.2.takeWhile (fun c => c.isDigit)
  if digits.isEmpty then none
  else some (signed.1 * (digits.foldl (fun acc c => acc * 10 + (c.toNat - 48)) 0 : Nat))

/-- JavaScript `String.prototype.trim`: strip whitespace from both ends. -/
def jsTrim (s : String) : String :=
  String.mk (((s.data.dropWhile (fun c => c.isWhitespace)).reverse.dropWhile
    (fun c => c.isWhitespace)).reverse)

/-- JavaScript `String.prototype.endsWith`. -/
def jsEndsWith (s pat : String) : Bool :=
  listStartsWith s.data.reverse pat.data.reverse

/-- `trimmed.slice(0, -1)`: drop the last character. -/
def jsDropLast (s : String) : String :=
  String.mk (s.data.take (s.data.length - 1))

/-- `parseWait`: clamp the requested `wait` to `longPollTimeoutMs`, accepting
`"Ns"` or a bare number, defaulting to `longPollTimeoutMs`. -/
def parseWait (longPollTimeoutMs : Nat) (waitParam : Option String) : Nat :=
  match waitParam with
  | none => longPollTimeoutMs
  | some w =>
    let trimmed := jsTrim w
    let fromSuffix : Option Nat :=
      if jsEndsWith trimmed "s" then
        match parseIntPrefix (jsDropLast trimmed) with
        | some seconds =>
          if 0 < seconds then some (min (seconds.toNat * 1000) longPollTimeoutMs) else none
        | none => none
      else none
    match fromSuffix with
    | some v => v
    | none =>
      match parseIntPrefix trimmed with
      | some numeric =>
        if 0 < numeric then min (numeric.toNat * 1000) longPollTimeoutMs
        else longPollTimeoutMs
      | none => longPollTimeoutMs

/-- The immediate decision of `handleAnswerLongPoll`: `200` with the Answer,
`400` with an error body, or waiter registration that answers `204` when the
timer fires after `waitMs`. -/
inductive LongPollOutcome where
  | ok200 (answer : AnswerRow)
  | bad400 (error : String)
  | timeout204After (waitMs : Nat)
deriving Repr

/-- `handleAnswerLongPoll`: parse the wait parameter, read the Answer from
the database; return it when present, `400` when the read errs, otherwise
register a waiter whose timer fires after `waitMs`. -/
def handleAnswerLongPoll (db : DB) (longPollTimeoutMs : Nat) (askId : String)
    (waitParam : Option String) : LongPollOutcome :=
  let waitMs := parseWait longPollTimeoutMs waitParam
  match JobManager.getAnswer db askId with
  | .error e => .bad400 e
  | .ok (some a) => .ok200 a
  | .ok none => .timeout204After waitMs

/-! ## A small JSON reader (`JSON.parse`), used by the Answer Runner's
response parsing and shape-only schema check. Numbers are read as integers
(see the file header). -/

/-- Left brace, kept out of string literals. -/
def lbrace : Char := Char.ofNat 123

/-- Right brace. -/
def rbrace : Char := Char.ofNat 125

/-- Skip JSON whitespace. -/
def skipWs (cs : List Char) : List Char :=
  cs.dropWhile (fun c => c = ' ' || c = '\n' || c = '\t' || c = '\r')

/-- Hex digit value. -/
def hexVal (c : Char) : Nat :=
  if c.isDigit then c.toNat - 48
  else if 'a' ≤ c && c ≤ 'f' then c.toNat - 87
  else if 'A' ≤ c && c ≤ 'F' then c.toNat - 55
  else 0

/-- Read a JSON string literal body (after the opening quote). -/
def parseStrLit : Nat → List Char → Option (String × List Char)
  | 0, _ => none
  | fuel + 1, cs =>
    match cs with
    | [] => none
    | c :: rest =>
      if c = '"' then some ("", rest)
      else if c = '\\' then
        match rest with
        | [] => none
        | e :: rest2 =>
          let dec : Option (String × List Char) :=
            if e = '"' then some ("\"", rest2)
            else if e = '\\' then some ("\\", rest2)
            else if e = '/' then some ("/", rest2)
            else if e = 'n' then some ("\n", rest2)
            else if e = 't' then some ("\t", rest2)
            else if e = 'r' then some ("\r", rest2)
            else if e = 'b' then some (String.mk [Char.ofNat 8], rest2)
            else if e = 'f' then some (String.mk [Char.ofNat 12], rest2)
            else if e = 'u' then
              match rest2 with
              | h1 :: h2 :: h3 :: h4 :: rest3 =>
                if isHexCh h1 && isHexCh h2 && isHexCh h3 && isHexCh h4 then
                  some (String.mk
                    [Char.ofNat (hexVal h1 * 4096 + hexVal h2 * 256 + hexVal h3 * 16 + hexVal h4)],
                    rest3)
                else none
              | _ => none
            else none
          match dec with
          | none => none
          | some pr =>
            match parseStrLit fuel pr.2 with
            | some sr => some (pr.1 ++ sr.1, sr.2)
            | none => none
      else
        match parseStrLit fuel rest with
        | some sr => some (String.mk [c] ++ sr.1, sr.2)
        | none => none

mutual

/-- Read one JSON value. -/
def parseJsonAux : Nat → List Char → Option (Json × List Char)
  | 0, _ => none
  | fuel + 1, cs0 =>
    let cs := skipWs cs0
    match cs with
    | [] => none
    | c :: rest =>
      if c = '"' then
        match parseStrLit (fuel + 1) rest with
        | some sr => some (.str sr.1, sr.2)
        | none => none
      else if c = '[' then
        match skipWs rest with
        | c2 :: rest2 =>
          if c2 = ']' then some (.arr [], rest2)
          else
            match parseArrItems fuel (skipWs rest) with
            | some vr => some (.arr vr.1, vr.2)
            | none => none
        | [] => none
      else if c = lbrace then
        match skipWs rest with
        | c2 :: rest2 =>
          if c2 = rbrace then some (.obj [], rest2)
          else
            match parseObjItems fuel (skipWs rest) with
            | some fr => some (.obj fr.1, fr.2)
            | none => none
        | [] => none
      else if listStartsWith cs ['n', 'u', 'l', 'l'] then some (.null, cs.drop 4)
      else if listStartsWith cs ['t', 'r', 'u', 'e'] then some (.bool true, cs.drop 4)
      else if listStartsWith cs ['f', 'a', 'l', 's', 'e'] then some (.bool false, cs.drop 5)
      else
        let sign : Int × List Char := if c = '-' then (-1, rest) else (1, cs)
        let digits := sign.2.takeWhile (fun d => d.isDigit)
        if digits.isEmpty then none
        else some (.num (sign.1 * (digits.foldl (fun acc d => acc * 10 + (d.toNat - 48)) 0 : Nat)),
                   sign.2.drop digits.length)

/-- Read comma-separated array items up to the closing bracket. -/
def parseArrItems : Nat → List Char → Option (List Json × List Char)
  | 0, _ => none
  | fuel + 1, cs =>
    match parseJsonAux fuel cs with
    | none => none
    | some vr =>
      match skipWs vr.2 with
      | c :: r2 =>
        if c = ',' then
          match parseArrItems fuel r2 with
          | some tr => some (vr.1 :: tr.1, tr.2)
          | none => none
        else if c = ']' then some ([vr.1], r2)
        else none
      | [] => none

/-- Read comma-separated object fields up to the closing brace. -/
def parseObjItems : Nat → List Char → Option (List (String × Json) × List Char)
  | 0, _ => none
  | fuel + 1, cs =>
    match skipWs cs with
    | c :: rest =>
      if c = '"' then
        match parseStrLit fuel rest with
        | none => none
        | some kr =>
          match skipWs kr.2 with
          | c2 :: r2 =>
            if c2 = ':' then
              match parseJsonAux fuel r2 with
              | none => none
              | some vr =>
                match skipWs vr.2 with
                | c3 :: r3 =>
                  if c3 = ',' then
                    match parseObjItems fuel r3 with
                    | some fr => some ((kr.1, vr.1) :: fr.1, fr.2)
                    | none => none
                  else if c3 = rbrace then some ([(kr.1, vr.1)], r3)
                  else none
                | [] => none
            else none
          | [] => none
      else none
    | [] => none

end

/-- `JSON.parse` on a string: one value consuming the whole input. -/
def Json.parse (s : String) : Option Json :=
  match parseJsonAux (2 * s.length + 8) s.data with
  | some vr => if (skipWs vr.2).isEmpty then some vr.1 else none
  | none => none

/-! ## Pretty serialization (`JSON.stringify(x, null, 2)`), used when the
prompt builder embeds metadata. -/

/-- `n` spaces. -/
def indentStr (n : Nat) : String := String.mk (List.replicate n ' ')

mutual

/-- `JSON.stringify` with two-space indentation, at ambient indent `ind`. -/
def serializePretty : Nat → Json → String
  | _, .null => "null"
  | _, .bool true => "true"
  | _, .bool false => "false"
  | _, .num n => toString n
  | _, .str s => jsonQuote s
  | _, .arr [] => "[]"
  | ind, .arr (x :: xs) =>
    "[\n" ++ serializePrettyList (ind + 2) (x :: xs) ++ "\n" ++ indentStr ind ++ "]"
  | _, .obj [] => "\x7b\x7d"
  | ind, .obj (f :: fs) =>
    "\x7b\n" ++ serializePrettyFields (ind + 2) (f :: fs) ++ "\n" ++ indentStr ind ++ "\x7d"

/-- Pretty array items, one per line. -/
def serializePrettyList : Nat → List Json → String
  | _, [] => ""
  | ind, [x] => indentStr ind ++ serializePretty ind x
  | ind, x :: y :: xs =>
    indentStr ind ++ serializePretty ind x ++ ",\n" ++ serializePrettyList ind (y :: xs)

/-- Pretty object fields, one per line. -/
def serializePrettyFields : Nat → List (String × Json) → String
  | _, [] => ""
  | ind, [(k, v)] => indentStr ind ++ jsonQuote k ++ ": " ++ serializePretty ind v
  | ind, (k, v) :: f :: fs =>
    indentStr ind ++ jsonQuote k ++ ": " ++ serializePretty ind v ++ ",\n" ++
      serializePrettyFields ind (f :: fs)

end

/-- `JSON.stringify(x, null, 2)`. -/
def stringifyPretty (j : Json) : String := serializePretty 0 j

/-! ## Answer Runner (src/answer-runner) -/

/-- Role limits (role-catalog.ts `RoleDefinition['limits']`). -/
structure RoleLimits where
  max_tokens : Option Nat := none
  max_tool_calls : Option Nat := none
deriving Repr, DecidableEq

/-- A role definition loaded from the prompts directory
(role-catalog.ts `RoleDefinition`). -/
structure RoleDefinition where
  id : String
  version : Nat
  purpose : String
  system : String
  input_schema : Option String := none
  output_schema : Option String := none
  tool_whitelist : Option (List String) := none
  limits : Option RoleLimits := none
  guardrails : Option (List String) := none
deriving Repr

/-- Default role per ask type, translated from
`RoleCatalog.getDefaultRoleForType`. -/
def getDefaultRoleForType : AskType → Option String
  | .CLARIFICATION => some "role.clarifier"
  | .RESOURCE_FETCH => some "role.finder"
  | .POLICY_DECISION => some "role.policy_decider"
  | .APPROVAL => some "role.policy_decider"
  | .CHOICE => some "role.clarifier"

/-- Ask type name, as interpolated into the context layer. -/
def AskType.name : AskType → String
  | .CLARIFICATION => "CLARIFICATION"
  | .RESOURCE_FETCH => "RESOURCE_FETCH"
  | .POLICY_DECISION => "POLICY_DECISION"
  | .APPROVAL => "APPROVAL"
  | .CHOICE => "CHOICE"

/-- The runner's view of a stored Ask (`AskRecordSchema` in
src/models/schemas.ts), context envelope included. -/
structure AskRecord where
  askId : String
  jobId : String
  stepId : String
  askType : AskType
  prompt : String
  contextHash : String
  contextEnvelope : Json
  constraints : Option AskConstraints := none
  roleId : Option String := none
  meta : Option Json := none
  createdAt : Nat
  status : AskStatus
deriving Repr

/-- `PromptLayers` (prompt-builder.ts). -/
structure PromptLayers where
  base : String
  role : Option String := none
  context : Option String := none
  task : String

/-- `PromptBuilder.build`: concatenate present layers separated by
`\n---\n` (a JavaScript-falsy empty layer is skipped). -/
def buildLayered (layers : PromptLayers) : String :=
  let parts : List String :=
    [layers.base] ++
    (match layers.role with
     | some r => if r = "" then [] else ["\n---\n", r]
     | none => []) ++
    (match layers.context with
     | some c => if c = "" then [] else ["\n---\n", c]
     | none => []) ++
    ["\n---\n", layers.task]
  String.join parts

/-- `PromptBuilder.buildBaseLayer`: the fixed system instructions. -/
def buildBaseLayer : String :=
  "You are the SCHEDULER of mcp-task-relay.\n\nPURPOSE\n- Answer Ask messages from the Executor with minimal, actionable results.\n- Run code and call MCP tools ONLY inside your own answer-runner. Do not expose tool schemas or verbose traces unless asked by policy.\n- Always return a single JSON object. No extra text before or after the JSON.\n\nOUTPUT CONTRACT\n- Return JSON with these fields: answer_text (optional string), answer_json (optional structured data), ask_back (optional follow-up question).\n- Keep answer_text ≤ 1000 chars and answer_json ≤ 200 lines if possible. Summarize aggressively.\n- If the output schema is specified in the task, you MUST match it exactly.\n\nBEHAVIOR\n- Only load MCP tools explicitly allowed. If none, use the smallest safe set or pure reasoning.\n- If information is insufficient, put your brief question into ask_back. Do NOT invent facts.\n- On errors/timeouts: provide a concise error description.\n\nGUARDRAILS\n- JSON-only; minimize tokens; deterministic field order; no side-effects unless policy allows."

/-- `PromptBuilder.buildRoleLayer`. -/
def buildRoleLayer (role : RoleDefinition) : String :=
  let parts : List String :=
    ["ROLE: " ++ role.id ++ " (v" ++ toString role.version ++ ")",
     "PURPOSE: " ++ role.purpose, "", "SYSTEM INSTRUCTIONS:", role.system] ++
    (match role.input_schema with
     | some s => ["", "INPUT SCHEMA:", s]
     | none => []) ++
    (match role.output_schema with
     | some s => ["", "OUTPUT SCHEMA (you MUST match this exactly):", s]
     | none => []) ++
    (match role.tool_whitelist with
     | some ts =>
       if 0 < ts.length then
         ["", "ALLOWED TOOLS:", String.intercalate "\n" (ts.map (fun t => "  - " ++ t))]
       else []
     | none => []) ++
    (match role.limits with
     | some l =>
       ["", "LIMITS:"] ++
       (match l.max_tokens with
        | some mt => ["  - Maximum output tokens: " ++ toString mt]
        | none => []) ++
       (match l.max_tool_calls with
        | some mc => ["  - Maximum tool calls: " ++ toString mc]
        | none => [])
     | none => []) ++
    (match role.guardrails with
     | some gs =>
       if 0 < gs.length then
         ["", "GUARDRAILS:", String.intercalate "\n" (gs.map (fun g => "  - " ++ g))]
       else []
     | none => [])
  String.intercalate "\n" parts

/-- `PromptBuilder.buildContextLayer`. -/
def buildContextLayer (ask : AskRecord) : String :=
  let parts : List String :=
    ["CONTEXT", "Job ID: " ++ ask.jobId, "Step ID: " ++ ask.stepId,
     "Ask Type: " ++ ask.askType.name] ++
    (match ask.constraints.bind (fun c => c.allowed_tools) with
     | some ts =>
       if 0 < ts.length then
         ["", "Allowed tools for this Ask:",
          String.intercalate "\n" (ts.map (fun t => "  - " ++ t))]
       else []
     | none => []) ++
    (match ask.constraints.bind (fun c => c.timeout_s) with
     | some t => if t ≠ 0 then ["", "Timeout: " ++ toString t ++ "s"] else []
     | none => []) ++
    (match ask.constraints.bind (fun c => c.max_tokens) with
     | some t => if t ≠ 0 then ["", "Max tokens: " ++ toString t] else []
     | none => []) ++
    (match ask.meta with
     | some m => ["", "Metadata:", stringifyPretty m]
     | none => [])
  String.intercalate "\n" parts

/-- JavaScript truthiness of a JSON value. -/
def jsonTruthy : Json → Bool
  | .null => false
  | .bool b => b
  | .num n => n ≠ 0
  | .str s => s ≠ ""
  | .arr _ => true
  | .obj _ => true

/-- `PromptBuilder.buildTaskLayer`. -/
def buildTaskLayer (ask : AskRecord) : String :=
  let overrideParts : List String :=
    match ask.meta with
    | some m =>
      match jsonLookup m "prompt_overrides" with
      | some ov =>
        (match jsonLookup ov "system_append" with
         | some (.str s) => if s ≠ "" then ["", "ADDITIONAL INSTRUCTIONS:", s] else []
         | _ => []) ++
        (match jsonLookup ov "output_schema" with
         | some v =>
           if jsonTruthy v then ["", "REQUIRED OUTPUT SCHEMA:", stringifyPretty v] else []
         | none => [])
      | none => []
    | none => []
  String.intercalate "\n"
    (["TASK", "", ask.prompt] ++ overrideParts ++
     ["", "Remember: Return ONLY a JSON object with answer_text, answer_json, and/or ask_back fields."])

/-- Runner configuration (`RunnerConfig`, after constructor defaults). -/
structure RunnerConfig where
  model : String := "claude-3-5-sonnet-20241022"
  maxRetries : Nat := 1
  defaultTimeout : Nat := 60

/-- `AnswerResult` (runner.ts). -/
structure AnswerResult where
  status : AnswerStatus
  answerText : Option String := none
  answerJson : Option Json := none
  attestation : Option Attestation := none
  askBack : Option String := none
  error : Option String := none
  policyTrace : Option Json := none
  cacheable : Option Bool := none
deriving Repr

/-- The outcome of one `run`, together with how many times the LLM was
invoked (`callLLM` call count, attempts that threw included). -/
structure RunOutcome where
  result : AnswerResult
  llmCalls : Nat
deriving Repr

/-- The `{first brace .. last brace}` span the regex in `parseResponse`
extracts: from the first left brace to the last right brace after it. -/
def extractJsonSpan (text : String) : Option String :=
  let cs := text.data
  let lastRb : Option Nat :=
    match cs.reverse.findIdx? (fun x => x = rbrace) with
    | some k => some (cs.length - 1 - k)
    | none => none
  match cs.findIdx? (fun c => c = lbrace), lastRb with
  | some i, some j =>
    if i < j then some (String.mk ((cs.drop i).take (j - i + 1))) else none
  | _, _ => none

/-- The three optional answer fields parsed from the LLM response. -/
structure ParsedResponse where
  answerText : Option String := none
  answerJson : Option Json := none
  askBack : Option String := none
deriving Repr

/-- `parseResponse`: locate the outermost JSON object; extract `answer_text`
(string), `answer_json` (any), `ask_back` (string); fall back to the trimmed
raw text when no JSON is found or parsing fails. -/
def parseResponse (text : String) : ParsedResponse :=
  match extractJsonSpan text with
  | none => { answerText := some text.trim }
  | some sub =>
    match Json.parse sub with
    | none => { answerText := some text.trim }
    | some j =>
      { answerText :=
          match jsonLookup j "answer_text" with
          | some (.str s) => some s
          | _ => none,
        answerJson := jsonLookup j "answer_json",
        askBack :=
          match jsonLookup j "ask_back" with
          | some (.str s) => some s
          | _ => none }

/-- `validateJsonSchema`: shape-only check of the top-level type against the
role's output schema; a broken schema skips validation. -/
def validateJsonSchema (data : Json) (schemaString : String) : Bool :=
  match Json.parse schemaString with
  | none => true
  | some schema =>
    match jsonLookup schema "type" with
    | some (.str t) =>
      if t = "object" then data.isObj
      else if t = "array" then (match data with | .arr _ => true | _ => false)
      else true
    | _ => true

/-- Modelled from the spec: `getEnvelopeValue` is imported from src/utils
(its defining module is not among the provided sources); per the spec the
attestation's `policy_version` comes "from envelope", whose canonical shape
keeps it inside `job_snapshot`. Reads `key` from the envelope (top level,
then `job_snapshot`), returning `dflt` when absent; non-string values are
coerced as `String(x)`. -/
def getEnvelopeValue (env : Json) (key dflt : String) : String :=
  match jsonLookup env key with
  | some (.str s) => s
  | some v => serialize v
  | none =>
    match (jsonLookup env "job_snapshot").bind (fun s => jsonLookup s key) with
    | some (.str s) => s
    | some v => serialize v
    | none => dflt

/-- `generateAttestation`: context hash, role identity, model, SHA-256
prompt fingerprint, tools used, and the envelope's policy version. -/
def generateAttestation (cfg : RunnerConfig) (ask : AskRecord)
    (roleId roleVersion prompt : String) (toolsUsed : List String) : Attestation :=
  { context_hash := ask.contextHash, role_id := roleId, role_version := roleVersion,
    model := cfg.model, prompt_fingerprint := sha256Hex prompt,
    tools_used := toolsUsed,
    policy_version := getEnvelopeValue ask.contextEnvelope "policy_version" "1.0" }

/-- The retry loop of `run` (`for attempt = 0..maxRetries`): each iteration
calls the LLM once (`llm attempt` returns the response text or the thrown
error); schema-invalid JSON retries until the final attempt, which downgrades
to a non-cacheable ANSWERED text; a successful parse attests and returns. -/
def attemptLoop (cfg : RunnerConfig) (llm : Nat → Except String String)
    (ask : AskRecord) (role : Option RoleDefinition) (roleId : Option String)
    (prompt : String) :
    (remaining attempt calls : Nat) → Option String → RunOutcome
  | 0, _, calls, lastError =>
    let r : AnswerResult :=
      { status := .ERROR, error := some (lastError.getD "Unknown error"),
        cacheable := some false }
    { result := r, llmCalls := calls }
  | remaining + 1, attempt, calls, _lastError =>
    match llm attempt with
    | .error msg =>
      attemptLoop cfg llm ask role roleId prompt remaining (attempt + 1) (calls + 1) (some msg)
    | .ok text =>
      let parsed := parseResponse text
      let schemaCheck : Option Bool :=
        match role, parsed.answerJson with
        | some r, some j =>
          match r.output_schema with
          | some s => some (validateJsonSchema j s)
          | none => none
        | _, _ => none
      match schemaCheck with
      | some false =>
        if 0 < remaining then
          attemptLoop cfg llm ask role roleId prompt remaining (attempt + 1) (calls + 1)
            (some "JSON schema validation failed")
        else
          let r : AnswerResult :=
            { status := .ANSWERED,
              answerText := some ("Schema validation failed. Raw output: " ++
                serialize (parsed.answerJson.getD .null)),
              cacheable := some false }
          { result := r, llmCalls := calls + 1 }
      | _ =>
        let attestation := generateAttestation cfg ask (roleId.getD "default")
          (match role with | some r => toString r.version | none => "1.0") prompt
          ((ask.constraints.bind (fun c => c.allowed_tools)).getD [])
        let r : AnswerResult :=
          { status := .ANSWERED, answerText := parsed.answerText,
            answerJson := parsed.answerJson, askBack := parsed.askBack,
            attestation := some attestation, cacheable := some true }
        { result := r, llmCalls := calls + 1 }

/-- `AnswerRunner.run`, translated from src/answer-runner/runner.ts. The
role catalog is the pure lookup `RoleCatalog.load` resolves to; the LLM is an
oracle from the attempt number to the response text or the thrown error.
Step order: verify the context hash (fail fast, no LLM call), resolve the
role, build the layered prompt, then the retry loop. -/
def AnswerRunner.run (cfg : RunnerConfig) (catalog : String → Option RoleDefinition)
    (llm : Nat → Except String String) (ask : AskRecord) : RunOutcome :=
  let computedHash := stableHashContext ask.contextEnvelope
  if computedHash ≠ ask.contextHash then
    let r : AnswerResult :=
      { status := .ERROR,
        error := some ("E_CONTEXT_MISMATCH: Context hash verification failed. Expected " ++
          ask.contextHash ++ ", computed " ++ computedHash),
        cacheable := some false }
    { result := r, llmCalls := 0 }
  else
    let roleId : Option String :=
      match ask.roleId with
      | some r => some r
      | none => getDefaultRoleForType ask.askType
    let role : Option RoleDefinition := roleId.bind catalog
    if ask.roleId.isSome ∧ role.isNone then
      let r : AnswerResult :=
        { status := .ERROR,
          error := some ("Role not found: " ++ ask.roleId.getD ""),
          cacheable := some false }
      { result := r, llmCalls := 0 }
    else
      let layers : PromptLayers :=
        { base := buildBaseLayer, context := some (buildContextLayer ask),
          task := buildTaskLayer ask, role := role.map buildRoleLayer }
      let prompt := buildLayered layers
      attemptLoop cfg llm ask role roleId prompt (cfg.maxRetries + 1) 0 0 none

/-- `processAsk` (src/index.ts): run the Answer Runner on the Ask and record
the resulting Answer through the Job Manager. Returns the run outcome, the
record result, and the resulting database. -/
def processAsk (db : DB) (now : Nat) (cfg : RunnerConfig)
    (catalog : String → Option RoleDefinition) (llm : Nat → Except String String)
    (ask : AskRecord) : RunOutcome × Result AnswerRow × DB :=
  let outcome := AnswerRunner.run cfg catalog llm ask
  let payload : AnswerPayload :=
    { ask_id := ask.askId, job_id := ask.jobId, step_id := ask.stepId,
      status := outcome.result.status, answer_text := outcome.result.answerText,
      answer_json := outcome.result.answerJson,
      attestation := outcome.result.attestation,
      ask_back := outcome.result.askBack, error := outcome.result.error,
      policy_trace := outcome.result.policyTrace,
      cacheable := outcome.result.cacheable }
  let recorded := JobManager.recordAnswer db now payload
  (outcome, recorded.1, recorded.2)

/-! ## Concrete fixtures shared by the theorems below -/

/-- The empty database. -/
def emptyDB : DB := {}

/-- A concrete, well-formed job specification with idempotency key `K1`. -/
def spec0 : JobSpec :=
  { repo := { typ := .git, url := some "https://example.com/r.git", baseBranch := "main",
              baselineCommit := "aaaaaaaaaaaaaaaaaaaaaaaaaaaaaaaaaaaaaaaa" },
    task := { title := "t", description := "d", acceptance := ["ok"] },
    scope := { readPaths := ["src/"] },
    execution := {},
    idempotencyKey := "K1" }

/-- `spec0` submitted at t=100 as `job1`: one QUEUED job. -/
def db1 : DB := (JobManager.submit emptyDB 100 "job1" spec0).2

/-- The stored row of `job1` right after submission. -/
def job1Row : JobRow :=
  { id := "job1", idempotencyKey := "K1", state := .QUEUED, stateVersion := 0,
    priority := .P1, createdAt := 100, ttlS := 3600, spec := spec0 }

/-- Worker `w1` acquires the lease at t=200: `job1` RUNNING and leased. -/
def db2 : DB := (JobsRepository.acquireLease db1 200 "w1" 60000).2

/-- `job1` moved to WAITING_ON_ANSWER at t=300 (still leased by `w1`). -/
def db3 : DB := (JobManager.updateState db2 300 "job1" .WAITING_ON_ANSWER).2

/-! ## C6 — hash determinism under key reordering -/

/-- C6: for every context envelope and every reordering of object keys at any
depth (array order unchanged), `stableHashContext` returns the same string:
the hash depends only on the structural value of the envelope. -/
theorem c6_stableHash_key_order_invariant {a b : Json}
    (ha : Json.wf a = true) (hb : Json.wf b = true) (h : KeyShuffle a b) :
    stableHashContext a = stableHashContext b := by
  unfold stableHashContext
  rw [canonicalize_eq_of_shuffle h ha hb]

/-- A two-level envelope. -/
def c6Env1 : Json :=
  .obj [("b", .num 2), ("a", .obj [("y", .str "v"), ("x", .null)])]

/-- `c6Env1` with keys reordered at both levels. -/
def c6Env2 : Json :=
  .obj [("a", .obj [("x", .null), ("y", .str "v")]), ("b", .num 2)]

/-- Witness for C6 at a concrete nested envelope and reordering. -/
theorem c6_stableHash_witness :
    Json.wf c6Env1 = true ∧ Json.wf c6Env2 = true ∧ KeyShuffle c6Env1 c6Env2 ∧
      stableHashContext c6Env1 = stableHashContext c6Env2 := by
  have hinner : KeyShuffle (.obj [("y", .str "v"), ("x", .null)])
      (.obj [("x", .null), ("y", .str "v")]) :=
    @KeyShuffle.obj _ _ [("y", .str "v"), ("x", .null)]
      (keyShuffleFields_refl _) (List.Perm.swap _ _ _)
  have hks : KeyShuffle c6Env1 c6Env2 :=
    @KeyShuffle.obj _ _
      [("b", .num 2), ("a", .obj [("x", .null), ("y", .str "v")])]
      (.cons (.num 2) (.cons hinner .nil))
      (List.Perm.swap _ _ _)
  exact ⟨rfl, rfl, hks, c6_stableHash_key_order_invariant rfl rfl hks⟩

/-! ## C3 — context-hash mismatch is fail-fast -/

/-- C3: when the stored `context_hash` differs from `stableHashContext` of
the envelope, `AnswerRunner.run` returns an ERROR answer whose message
contains `E_CONTEXT_MISMATCH`, with `cacheable = false` and zero LLM calls. -/
theorem c3_context_mismatch_fail_fast (cfg : RunnerConfig)
    (catalog : String → Option RoleDefinition) (llm : Nat → Except String String)
    (ask : AskRecord) (h : stableHashContext ask.contextEnvelope ≠ ask.contextHash) :
    (AnswerRunner.run cfg catalog llm ask).result.status = .ERROR ∧
    (AnswerRunner.run cfg catalog llm ask).result.error =
      some ("E_CONTEXT_MISMATCH: Context hash verification failed. Expected " ++
        ask.contextHash ++ ", computed " ++ stableHashContext ask.contextEnvelope) ∧
    strHasSub (((AnswerRunner.run cfg catalog llm ask).result.error).getD "")
      "E_CONTEXT_MISMATCH" = true ∧
    (AnswerRunner.run cfg catalog llm ask).result.cacheable = some false ∧
    (AnswerRunner.run cfg catalog llm ask).llmCalls = 0 := by
  have hrun : AnswerRunner.run cfg catalog llm ask =
      { result :=
          { status := .ERROR,
            error := some ("E_CONTEXT_MISMATCH: Context hash verification failed. Expected " ++
              ask.contextHash ++ ", computed " ++ stableHashContext ask.contextEnvelope),
            cacheable := some false },
        llmCalls := 0 } := by
    unfold AnswerRunner.run
    rw [if_pos h]
  refine ⟨by rw [hrun], by rw [hrun], ?_, by rw [hrun], by rw [hrun]⟩
  rw [hrun]
  show strHasSub (("E_CONTEXT_MISMATCH: Context hash verification failed. Expected " ++
    ask.contextHash ++ ", computed " ++ stableHashContext ask.contextEnvelope))
    "E_CONTEXT_MISMATCH" = true
  unfold strHasSub
  have hd : ("E_CONTEXT_MISMATCH: Context hash verification failed. Expected " ++
      ask.contextHash ++ ", computed " ++ stableHashContext ask.contextEnvelope).data =
      ("E_CONTEXT_MISMATCH: Context hash verification failed. Expected ").data ++
      (ask.contextHash.data ++ (", computed ").data ++
        (stableHashContext ask.contextEnvelope).data) := by
    simp [List.append_assoc]
  rw [hd]
  exact listHasSub_of_startsWith (listStartsWith_append_of _ (by decide))

/-- Witness for C3: a hash field of length 8 can never equal the 64-character
output of `stableHashContext`, so the mismatch branch is taken. -/
def c3Ask : AskRecord :=
  { askId := "123e4567-e89b-12d3-a456-426614174000", jobId := "job1", stepId := "s1",
    askType := .CLARIFICATION, prompt := "p", contextHash := "deadbeef",
    contextEnvelope := .obj [("job_snapshot", .obj []), ("role", .str "default")],
    createdAt := 300, status := .PENDING }

/-- Witness for C3 at a concrete mismatched Ask. -/
theorem c3_context_mismatch_witness :
    (AnswerRunner.run {} (fun _ => none) (fun _ => .ok "hi") c3Ask).result.status = .ERROR ∧
    strHasSub (((AnswerRunner.run {} (fun _ => none) (fun _ => .ok "hi")
      c3Ask).result.error).getD "") "E_CONTEXT_MISMATCH" = true ∧
    (AnswerRunner.run {} (fun _ => none) (fun _ => .ok "hi") c3Ask).result.cacheable =
      some false ∧
    (AnswerRunner.run {} (fun _ => none) (fun _ => .ok "hi") c3Ask).llmCalls = 0 := by
  have hne : stableHashContext c3Ask.contextEnvelope ≠ c3Ask.contextHash := by
    intro h
    have hlen := stableHashContext_length c3Ask.contextEnvelope
    rw [h] at hlen
    exact absurd hlen (by decide)
  obtain ⟨h1, _, h3, h4, h5⟩ :=
    c3_context_mismatch_fail_fast {} (fun _ => none) (fun _ => .ok "hi") c3Ask hne
  exact ⟨h1, h3, h4, h5⟩

/-! ## C9 — renewLease -/

/-- A SQL `UPDATE ... WHERE` over rows none of which match leaves the list
unchanged. -/
theorem map_update_eq_self {α : Type} (l : List α) (p : α → Prop) [DecidablePred p]
    (f : α → α) (h : ∀ a ∈ l, ¬ p a) :
    l.map (fun a => if p a then f a else a) = l := by
  induction l with
  | nil => rfl
  | cons x xs ih =>
    simp only [List.map_cons]
    rw [if_neg (h x (List.mem_cons_self x xs)), ih (fun a ha => h a (List.mem_cons_of_mem x ha))]

/-- C9 (amended): `renewLease` updates `heartbeat_at`/`lease_expires_at` and
returns true exactly when id and owner match and the state is RUNNING —
WAITING_ON_ANSWER does not qualify; in every other case it returns false and
leaves the rows unchanged. -/
theorem c9_renewLease_running_only (db : DB) (now : Nat) (jid owner : String) (ttl : Nat) :
    ((JobsRepository.renewLease db now jid owner ttl).1 = .ok true ↔
      ∃ r ∈ db.jobs, r.id = jid ∧ r.leaseOwner = some owner ∧ r.state = .RUNNING) ∧
    ((JobsRepository.renewLease db now jid owner ttl).2).jobs =
      db.jobs.map (fun r =>
        if r.id = jid ∧ r.leaseOwner = some owner ∧ r.state = .RUNNING then
          { r with leaseExpiresAt := some (now + ttl), heartbeatAt := some now }
        else r) ∧
    ((¬ ∃ r ∈ db.jobs, r.id = jid ∧ r.leaseOwner = some owner ∧ r.state = .RUNNING) →
      (JobsRepository.renewLease db now jid owner ttl).1 = .ok false ∧
      (JobsRepository.renewLease db now jid owner ttl).2 = db) := by
  refine ⟨?_, rfl, ?_⟩
  · show (Except.ok (decide (0 < db.jobs.countP
        (fun r => decide (r.id = jid ∧ r.leaseOwner = some owner ∧ r.state = .RUNNING)))) =
        (Except.ok true : Result Bool)) ↔ _
    constructor
    · intro h
      have hb := Except.ok.inj h
      have hpos := of_decide_eq_true hb
      obtain ⟨r, hr, hp⟩ := List.countP_pos_iff.mp hpos
      exact ⟨r, hr, of_decide_eq_true hp⟩
    · rintro ⟨r, hr, hp⟩
      have hpos : 0 < db.jobs.countP
          (fun r => decide (r.id = jid ∧ r.leaseOwner = some owner ∧ r.state = .RUNNING)) :=
        List.countP_pos_iff.mpr ⟨r, hr, decide_eq_true hp⟩
      rw [decide_eq_true hpos]
  · intro hnone
    have hzero : db.jobs.countP
        (fun r => decide (r.id = jid ∧ r.leaseOwner = some owner ∧ r.state = .RUNNING)) = 0 := by
      rw [List.countP_eq_zero]
      intro r hr
      simp only [decide_eq_true_eq]
      exact fun hp => hnone ⟨r, hr, hp⟩
    constructor
    · show Except.ok (decide (0 < db.jobs.countP _)) = _
      rw [hzero]
      rfl
    · show ({ db with jobs := db.jobs.map _ } : DB) = db
      rw [map_update_eq_self db.jobs
        (fun r => r.id = jid ∧ r.leaseOwner = some owner ∧ r.state = .RUNNING)
        (fun r => { r with leaseExpiresAt := some (now + ttl), heartbeatAt := some now })
        (fun r hr hp => hnone ⟨r, hr, hp⟩)]

/-- Witness for C9 (amended): at t=300, `job1` is leased by `w1` and RUNNING
in `db2`, so renewal succeeds there; after the WAITING_ON_ANSWER transition
in `db3` no row qualifies and the database is untouched. -/
theorem c9_renewLease_witness :
    ((JobsRepository.renewLease db2 250 "job1" "w1" 60000).1 = .ok true ↔
      ∃ r ∈ db2.jobs, r.id = "job1" ∧ r.leaseOwner = some "w1" ∧ r.state = .RUNNING) ∧
    ((JobsRepository.renewLease db3 400 "job1" "w1" 60000).1 = .ok false ∧
      (JobsRepository.renewLease db3 400 "job1" "w1" 60000).2 = db3) := by
  refine ⟨(c9_renewLease_running_only db2 250 "job1" "w1" 60000).1, ?_⟩
  refine (c9_renewLease_running_only db3 400 "job1" "w1" 60000).2.2 ?_
  rintro ⟨r, hr, -, -, hrun⟩
  have : r.state = JobState.WAITING_ON_ANSWER := by
    have : db3.jobs = [{ job1Row with
        state := .WAITING_ON_ANSWER, stateVersion := 2, leaseOwner := some "w1",
        leaseExpiresAt := some 60200, startedAt := some 200, heartbeatAt := some 200 }] := by
      rfl
    rw [this] at hr
    simp only [List.mem_singleton] at hr
    rw [hr]
  rw [this] at hrun
  exact absurd hrun (by decide)

/-- C9 (counterexample to the claim as stated): in `db3`, `job1` is in
WAITING_ON_ANSWER with matching id and owner, yet `renewLease` returns false
and leaves the row unchanged — the claim's "RUNNING or WAITING_ON_ANSWER"
does not hold; only RUNNING qualifies. -/
theorem c9_renewLease_counterexample :
    ((db3.jobs.head?).map (fun r => (r.id, r.state, r.leaseOwner))) =
      some ("job1", .WAITING_ON_ANSWER, some "w1") ∧
    (JobsRepository.renewLease db3 400 "job1" "w1" 60000).1 = .ok false ∧
    ((JobsRepository.renewLease db3 400 "job1" "w1" 60000).2).jobs = db3.jobs :=
  ⟨rfl, rfl, rfl⟩

/-! ## C10 — answer long-poll -/

/-- The effective wait is always clamped to `longPollTimeoutMs`. -/
theorem parseWait_le (cfg : Nat) (w : Option String) : parseWait cfg w ≤ cfg := by
  unfold parseWait
  cases w with
  | none => exact Nat.le_refl cfg
  | some s =>
    dsimp only
    split
    next v heq =>
      by_cases hs : jsEndsWith (jsTrim s) "s"
      · rw [if_pos hs] at heq
        cases hp : parseIntPrefix (jsDropLast (jsTrim s)) with
        | none => rw [hp] at heq; exact absurd heq (by simp)
        | some sec =>
          rw [hp] at heq
          dsimp only at heq
          by_cases hpos : 0 < sec
          · rw [if_pos hpos] at heq
            rw [← Option.some.inj heq]
            exact Nat.min_le_right _ _
          · rw [if_neg hpos] at heq
            exact absurd heq (by simp)
      · rw [if_neg hs] at heq
        exact absurd heq (by simp)
    next heq =>
      cases hp : parseIntPrefix (jsTrim s) with
      | none => simp [hp]
      | some n =>
        by_cases hpos : 0 < n
        · simp only [hp, if_pos hpos]
          exact Nat.min_le_right _ _
        · simp [hp, hpos]

/-- C10 (amended): the long-poll handler answers `200` with the stored Answer
when one exists; when none exists — an unknown ask id included — it registers
a waiter that times out to `204` after the effective wait, which never
exceeds `longPollTimeoutMs`; no `400` arises for an unknown ask id. -/
theorem c10_longPoll_amended :
    (∀ (db : DB) (cfg : Nat) (askId : String) (w : Option String) (a : AnswerRow),
      db.answers.find? (fun r => r.askId = askId) = some a →
      handleAnswerLongPoll db cfg askId w = .ok200 a) ∧
    (∀ (db : DB) (cfg : Nat) (askId : String) (w : Option String),
      db.answers.find? (fun r => r.askId = askId) = none →
      handleAnswerLongPoll db cfg askId w =
        .timeout204After (parseWait cfg w) ∧ parseWait cfg w ≤ cfg) := by
  constructor
  · intro db cfg askId w a h
    unfold handleAnswerLongPoll JobManager.getAnswer AnswersRepository.getByAskId
    rw [h]
  · intro db cfg askId w h
    refine ⟨?_, parseWait_le cfg w⟩
    unfold handleAnswerLongPoll JobManager.getAnswer AnswersRepository.getByAskId
    rw [h]

/-- Witness for C10 (amended) at a concrete database and wait parameter. -/
theorem c10_longPoll_witness :
    handleAnswerLongPoll emptyDB 30000 "unknown-ask" (some "25s") =
      .timeout204After 25000 ∧ (25000 : Nat) ≤ 30000 := by
  have h := (c10_longPoll_amended.2 emptyDB 30000 "unknown-ask" (some "25s") rfl)
  exact ⟨h.1, h.2⟩

/-- C10 (counterexample to the claim as stated): for an ask id that does not
exist at all, the handler does not answer `400` — it registers a waiter and
times out to `204`. -/
theorem c10_longPoll_counterexample :
    emptyDB.asks = [] ∧ emptyDB.answers = [] ∧
    handleAnswerLongPoll emptyDB 30000 "unknown-ask" (some "5s") =
      .timeout204After 5000 :=
  ⟨rfl, rfl, rfl⟩

/-! ## Preservation facts used by the remaining claims -/

/-- An event INSERT leaves the `jobs` table unchanged. -/
theorem eventsCreate_jobs (db : DB) (now : Nat) (jid typ : String) (payload : Json) :
    ((EventsRepository.create db now jid typ payload).2).jobs = db.jobs := by
  unfold EventsRepository.create
  split <;> rfl

/-- An event INSERT leaves the `asks` table unchanged. -/
theorem eventsCreate_asks (db : DB) (now : Nat) (jid typ : String) (payload : Json) :
    ((EventsRepository.create db now jid typ payload).2).asks = db.asks := by
  unfold EventsRepository.create
  split <;> rfl

/-- An event INSERT leaves the `answers` table unchanged. -/
theorem eventsCreate_answers (db : DB) (now : Nat) (jid typ : String) (payload : Json) :
    ((EventsRepository.create db now jid typ payload).2).answers = db.answers := by
  unfold EventsRepository.create
  split <;> rfl

/-- An event INSERT leaves the decision cache unchanged. -/
theorem eventsCreate_cache (db : DB) (now : Nat) (jid typ : String) (payload : Json) :
    ((EventsRepository.create db now jid typ payload).2).decisionCache = db.decisionCache := by
  unfold EventsRepository.create
  split <;> rfl

/-- The jobs UPDATE leaves the `asks` table unchanged. -/
theorem repoUpdateState_asks (db : DB) (now : Nat) (p : UpdateJobStateParams) :
    ((JobsRepository.updateState db now p).2).asks = db.asks := by
  unfold JobsRepository.updateState
  dsimp only
  split <;> rfl

/-- The jobs UPDATE leaves the `answers` table unchanged. -/
theorem repoUpdateState_answers (db : DB) (now : Nat) (p : UpdateJobStateParams) :
    ((JobsRepository.updateState db now p).2).answers = db.answers := by
  unfold JobsRepository.updateState
  dsimp only
  split <;> rfl

/-- The jobs UPDATE leaves the decision cache unchanged. -/
theorem repoUpdateState_cache (db : DB) (now : Nat) (p : UpdateJobStateParams) :
    ((JobsRepository.updateState db now p).2).decisionCache = db.decisionCache := by
  unfold JobsRepository.updateState
  dsimp only
  split <;> rfl

/-- The jobs UPDATE changes no row's `lease_owner`. -/
theorem repoUpdateState_leaseOwner (db : DB) (now : Nat) (p : UpdateJobStateParams) :
    ((JobsRepository.updateState db now p).2).jobs.map (fun r => r.leaseOwner) =
      db.jobs.map (fun r => r.leaseOwner) := by
  unfold JobsRepository.updateState
  dsimp only
  split
  · rfl
  · simp only [List.map_map]
    refine List.map_congr_left ?_
    intro r _
    by_cases h : r.id = p.id
    · simp [h]
    · simp [h]

/-- When the target job exists, the jobs UPDATE succeeds and every row with
that id carries the new state afterwards. -/
theorem repoUpdateState_found (db : DB) (now : Nat) (p : UpdateJobStateParams)
    (j : JobRow) (hj : j ∈ db.jobs) (hid : j.id = p.id) :
    (JobsRepository.updateState db now p).1 = .ok () ∧
    ∀ r ∈ ((JobsRepository.updateState db now p).2).jobs, r.id = p.id →
      r.state = p.state ∧ r.reasonCode = p.reasonCode := by
  have hcz : db.jobs.countP (fun r => decide (r.id = p.id)) ≠ 0 := by
    intro h0
    have := (List.countP_eq_zero).mp h0 j hj
    rw [decide_eq_true_eq] at this
    exact this hid
  unfold JobsRepository.updateState
  rw [if_neg hcz]
  refine ⟨rfl, ?_⟩
  intro r hr hrid
  simp only [List.mem_map] at hr
  obtain ⟨r0, _, hmap⟩ := hr
  by_cases h0 : r0.id = p.id
  · rw [if_pos h0] at hmap
    rw [← hmap]
    exact ⟨rfl, rfl⟩
  · rw [if_neg h0] at hmap
    rw [← hmap] at hrid
    exact absurd hrid h0

/-! ## C1 — updateState and the transition table -/

/-- `job1` driven to SUCCEEDED (terminal) at t=300. -/
def c1Db : DB := (JobManager.updateState db2 300 "job1" .SUCCEEDED).2

/-- C1 (counterexample to the claim as stated): `job1` is SUCCEEDED —
terminal, and `canTransition SUCCEEDED RUNNING` is false — yet
`JobManager.updateState` back to RUNNING succeeds and rewrites the row. -/
theorem c1_updateState_counterexample :
    ((c1Db.jobs.head?).map (fun r => (r.state, r.stateVersion))) =
      some (.SUCCEEDED, 2) ∧
    canTransition .SUCCEEDED .RUNNING = false ∧
    (JobManager.updateState c1Db 400 "job1" .RUNNING).1 = .ok () ∧
    (((JobManager.updateState c1Db 400 "job1" .RUNNING).2).jobs.head?).map
      (fun r => (r.state, r.stateVersion)) = some (.RUNNING, 3) :=
  ⟨rfl, rfl, rfl, rfl⟩

/-- C1 (amended): `canTransition` implements exactly the §4.3 table —
terminal states admit no exit — but `JobManager.updateState` never consults
it: for every existing job, terminal or not, the call succeeds and overwrites
the state. -/
theorem c1_updateState_unguarded :
    (∀ s t, canTransition s t = true ↔ specTransitionTable s t) ∧
    (∀ (db : DB) (now : Nat) (jid : String) (st : JobState)
       (opts : JobManager.UpdateOptions) (j : JobRow),
      j ∈ db.jobs → j.id = jid →
      (JobManager.updateState db now jid st opts).1 = .ok () ∧
      ∀ r ∈ ((JobManager.updateState db now jid st opts).2).jobs, r.id = jid →
        r.state = st) := by
  constructor
  · intro s t
    cases s <;> cases t <;> simp [canTransition, isTerminalState, specTransitionTable]
  · intro db now jid st opts j hj hid
    have hrepo := repoUpdateState_found db now
      { id := jid, state := st, reasonCode := opts.reasonCode, summary := opts.summary }
      j hj hid
    unfold JobManager.updateState
    rcases hcall : JobsRepository.updateState db now
        { id := jid, state := st, reasonCode := opts.reasonCode,
          summary := opts.summary } with ⟨res, db'⟩
    rw [hcall] at hrepo
    cases res with
    | error e => exact absurd hrepo.1 (by simp)
    | ok u =>
      dsimp only
      refine ⟨rfl, ?_⟩
      intro r hr hrid
      rw [eventsCreate_jobs] at hr
      exact (hrepo.2 r hr hrid).1

/-- Witness for C1 (amended): the table equivalence at a sample pair, and an
unguarded write on the concrete `db1`. -/
theorem c1_updateState_witness :
    (canTransition .QUEUED .RUNNING = true ↔ specTransitionTable .QUEUED .RUNNING) ∧
    ((JobManager.updateState db1 150 "job1" .EXPIRED {}).1 = .ok () ∧
      ∀ r ∈ ((JobManager.updateState db1 150 "job1" .EXPIRED {}).2).jobs,
        r.id = "job1" → r.state = .EXPIRED) :=
  ⟨c1_updateState_unguarded.1 .QUEUED .RUNNING,
   c1_updateState_unguarded.2 db1 150 "job1" .EXPIRED {} job1Row
     (by rw [show db1.jobs = [job1Row] from rfl]; exact List.mem_singleton.mpr rfl) rfl⟩

/-! ## C8 — the lease-owner invariant -/

/-- C8 (counterexample to the claim as stated): cancel of the leased RUNNING
`job1` reaches CANCELED — a terminal state — with `lease_owner` still set,
violating `lease_owner set ⇔ state ∈ {RUNNING, WAITING_ON_ANSWER}`. -/
theorem c8_leaseOwner_counterexample :
    ((db2.jobs.head?).map (fun r => (r.state, r.leaseOwner))) =
      some (.RUNNING, some "w1") ∧
    (JobManager.cancel db2 300 "job1").1 = .ok { ok := true, state := .CANCELED } ∧
    (((JobManager.cancel db2 300 "job1").2).jobs.head?).map
      (fun r => (r.state, r.leaseOwner)) = some (.CANCELED, some "w1") :=
  ⟨rfl, rfl, rfl⟩

/-- A membership-preserving view of `selectOldest`. -/
theorem selectOldest_mem {l : List JobRow} {r : JobRow}
    (h : JobsRepository.selectOldest l = some r) : r ∈ l := by
  induction l with
  | nil => exact absurd h (by simp [JobsRepository.selectOldest])
  | cons x xs ih =>
    unfold JobsRepository.selectOldest at h
    revert h
    cases hx : JobsRepository.selectOldest xs with
    | none =>
      intro h
      dsimp only at h
      obtain rfl := Option.some.inj h
      exact List.mem_cons_self x xs
    | some best =>
      intro h
      dsimp only at h
      by_cases hb : JobsRepository.leaseBefore best x = true
      · rw [if_pos hb] at h
        obtain rfl := Option.some.inj h
        exact List.mem_cons_of_mem x (ih hx)
      · rw [if_neg hb] at h
        obtain rfl := Option.some.inj h
        exact List.mem_cons_self x xs

/-- C8 (amended): `lease_owner` is only written by `acquireLease` (which sets
it together with `state = RUNNING`) and `releaseLease`; the state writes of
`updateState` and `cancel` leave every row's `lease_owner` untouched, so a
terminal transition of a leased job keeps `lease_owner` set and the claimed
equivalence fails. -/
theorem c8_leaseOwner_not_invariant :
    (∀ (db : DB) (now : Nat) (owner : String) (ttl : Nat) (jid : String),
      (JobsRepository.acquireLease db now owner ttl).1 = .ok (some jid) →
      ∃ r ∈ ((JobsRepository.acquireLease db now owner ttl).2).jobs,
        r.id = jid ∧ r.state = .RUNNING ∧ r.leaseOwner = some owner) ∧
    (∀ (db : DB) (now : Nat) (p : UpdateJobStateParams),
      ((JobsRepository.updateState db now p).2).jobs.map (fun r => r.leaseOwner) =
        db.jobs.map (fun r => r.leaseOwner)) ∧
    (∀ (db : DB) (now : Nat) (jid : String),
      ((JobManager.cancel db now jid).2).jobs.map (fun r => r.leaseOwner) =
        db.jobs.map (fun r => r.leaseOwner)) := by
  refine ⟨?_, repoUpdateState_leaseOwner, ?_⟩
  · intro db now owner ttl jid h
    unfold JobsRepository.acquireLease at h ⊢
    revert h
    cases hsel : JobsRepository.selectOldest (db.jobs.filter (JobsRepository.leaseAvailable now)) with
    | none =>
      intro h
      dsimp only at h
      simp at h
    | some cand =>
      intro h
      dsimp only at h ⊢
      have hcand := selectOldest_mem hsel
      rw [List.mem_filter] at hcand
      have hq : cand.state = .QUEUED := by
        have hav := hcand.2
        unfold JobsRepository.leaseAvailable at hav
        rw [Bool.and_eq_true] at hav
        exact of_decide_eq_true hav.1
      have hid : jid = cand.id := by
        by_cases hc : 0 < db.jobs.countP (fun r => decide (r.id = cand.id ∧ r.state = .QUEUED))
        · rw [if_pos hc] at h
          exact (Option.some.inj (Except.ok.inj h)).symm
        · rw [if_neg hc] at h
          exact absurd (Except.ok.inj h) (by simp)
      refine ⟨_, List.mem_map_of_mem _ hcand.1, ?_⟩
      rw [if_pos ⟨rfl, hq⟩]
      exact ⟨hid.symm, rfl, rfl⟩
  · intro db now jid
    unfold JobManager.cancel
    cases hget : JobsRepository.getById db jid with
    | error e => rfl
    | ok job =>
      dsimp only
      by_cases hterm : isTerminalState job.state = true
      · rw [if_pos hterm]
      · rw [if_neg hterm]
        rcases hupd : JobsRepository.updateState db now
            { id := jid, state := .CANCELED, summary := some "Canceled by user" }
          with ⟨res, db'⟩
        have hpres := repoUpdateState_leaseOwner db now
          { id := jid, state := .CANCELED, summary := some "Canceled by user" }
        rw [hupd] at hpres
        cases res with
        | error e => exact hpres
        | ok u =>
          dsimp only
          rw [eventsCreate_jobs]
          exact hpres

/-- Witness for C8 (amended): the acquire in `db1` yields `job1` RUNNING and
leased by `w1`; the state write and the cancel on concrete databases keep the
owner column intact. -/
theorem c8_leaseOwner_witness :
    (∃ r ∈ ((JobsRepository.acquireLease db1 200 "w1" 60000).2).jobs,
      r.id = "job1" ∧ r.state = .RUNNING ∧ r.leaseOwner = some "w1") ∧
    (((JobManager.cancel db2 300 "job1").2).jobs.map (fun r => r.leaseOwner) =
      db2.jobs.map (fun r => r.leaseOwner)) :=
  ⟨c8_leaseOwner_not_invariant.1 db1 200 "w1" 60000 "job1" rfl,
   c8_leaseOwner_not_invariant.2.2 db2 300 "job1"⟩

/-! ## More preservation and success lemmas for the manager-level claims -/

/-- The manager-level state write leaves the `asks` table unchanged. -/
theorem managerUpdateState_asks (db : DB) (now : Nat) (jid : String) (st : JobState)
    (opts : JobManager.UpdateOptions) :
    ((JobManager.updateState db now jid st opts).2).asks = db.asks := by
  unfold JobManager.updateState
  rcases hrepo : JobsRepository.updateState db now
      { id := jid, state := st, reasonCode := opts.reasonCode, summary := opts.summary }
    with ⟨res, db2⟩
  have hpres : db2.asks = db.asks := by
    have hh := repoUpdateState_asks db now
      { id := jid, state := st, reasonCode := opts.reasonCode, summary := opts.summary }
    rw [hrepo] at hh
    exact hh
  cases res with
  | error e => exact hpres
  | ok u =>
    dsimp only
    rw [eventsCreate_asks]
    exact hpres

/-- The manager-level state write leaves the `answers` table unchanged. -/
theorem managerUpdateState_answers (db : DB) (now : Nat) (jid : String) (st : JobState)
    (opts : JobManager.UpdateOptions) :
    ((JobManager.updateState db now jid st opts).2).answers = db.answers := by
  unfold JobManager.updateState
  rcases hrepo : JobsRepository.updateState db now
      { id := jid, state := st, reasonCode := opts.reasonCode, summary := opts.summary }
    with ⟨res, db2⟩
  have hpres : db2.answers = db.answers := by
    have hh := repoUpdateState_answers db now
      { id := jid, state := st, reasonCode := opts.reasonCode, summary := opts.summary }
    rw [hrepo] at hh
    exact hh
  cases res with
  | error e => exact hpres
  | ok u =>
    dsimp only
    rw [eventsCreate_answers]
    exact hpres

/-- The manager-level state write leaves the decision cache unchanged. -/
theorem managerUpdateState_cache (db : DB) (now : Nat) (jid : String) (st : JobState)
    (opts : JobManager.UpdateOptions) :
    ((JobManager.updateState db now jid st opts).2).decisionCache = db.decisionCache := by
  unfold JobManager.updateState
  rcases hrepo : JobsRepository.updateState db now
      { id := jid, state := st, reasonCode := opts.reasonCode, summary := opts.summary }
    with ⟨res, db2⟩
  have hpres : db2.decisionCache = db.decisionCache := by
    have hh := repoUpdateState_cache db now
      { id := jid, state := st, reasonCode := opts.reasonCode, summary := opts.summary }
    rw [hrepo] at hh
    exact hh
  cases res with
  | error e => exact hpres
  | ok u =>
    dsimp only
    rw [eventsCreate_cache]
    exact hpres

/-- When the target job exists, the manager-level state write succeeds and
every row with that id carries the new state and reason code afterwards. -/
theorem managerUpdateState_found (db : DB) (now : Nat) (jid : String) (st : JobState)
    (opts : JobManager.UpdateOptions) (j : JobRow) (hj : j ∈ db.jobs) (hid : j.id = jid) :
    (JobManager.updateState db now jid st opts).1 = .ok () ∧
    ∀ r ∈ ((JobManager.updateState db now jid st opts).2).jobs, r.id = jid →
      r.state = st ∧ r.reasonCode = opts.reasonCode := by
  have hrepo := repoUpdateState_found db now
    { id := jid, state := st, reasonCode := opts.reasonCode, summary := opts.summary } j hj hid
  unfold JobManager.updateState
  rcases hcall : JobsRepository.updateState db now
      { id := jid, state := st, reasonCode := opts.reasonCode, summary := opts.summary }
    with ⟨res, db2⟩
  rw [hcall] at hrepo
  cases res with
  | error e => exact absurd hrepo.1 (by simp)
  | ok u =>
    dsimp only
    refine ⟨rfl, ?_⟩
    intro r hr hrid
    rw [eventsCreate_jobs] at hr
    exact hrepo.2 r hr hrid

/-- An Ask INSERT succeeds with a fresh `PENDING` row — persisting the
context hash but not the envelope — when the ask id is fresh and the job
exists. -/
theorem asksCreate_success (db : DB) (now : Nat) (p : CreateAskParams)
    (hpk : db.asks.all (fun r => !(r.askId = p.askId)) = true)
    (hfk : ∃ r ∈ db.jobs, r.id = p.jobId) :
    AsksRepository.create db now p =
      (.ok { askId := p.askId, jobId := p.jobId, stepId := p.stepId, askType := p.askType,
             prompt := p.prompt, contextHash := p.contextHash, constraints := p.constraints,
             roleId := p.roleId, meta := p.meta, createdAt := now, status := .PENDING },
       { db with asks := db.asks ++
          [{ askId := p.askId, jobId := p.jobId, stepId := p.stepId, askType := p.askType,
             prompt := p.prompt, contextHash := p.contextHash, constraints := p.constraints,
             roleId := p.roleId, meta := p.meta, createdAt := now, status := .PENDING }] }) := by
  have hany : db.asks.any (fun r => r.askId = p.askId) = false := by
    rw [List.any_eq_false]
    intro r hr
    have := (List.all_eq_true).mp hpk r hr
    simpa using this
  have hjob : db.jobs.any (fun r => r.id = p.jobId) = true := by
    obtain ⟨r, hr, hid⟩ := hfk
    exact List.any_eq_true.mpr ⟨r, hr, by simpa using hid⟩
  unfold AsksRepository.create
  rw [hany, hjob]
  rfl

/-- The Ask INSERT leaves the `jobs` table unchanged. -/
theorem asksCreate_jobs (db : DB) (now : Nat) (p : CreateAskParams) :
    ((AsksRepository.create db now p).2).jobs = db.jobs := by
  unfold AsksRepository.create
  split
  · rfl
  · split <;> rfl

/-- The Ask INSERT leaves the decision cache unchanged. -/
theorem asksCreate_cache (db : DB) (now : Nat) (p : CreateAskParams) :
    ((AsksRepository.create db now p).2).decisionCache = db.decisionCache := by
  unfold AsksRepository.create
  split
  · rfl
  · split <;> rfl

/-- The Ask status UPDATE leaves jobs, answers and the cache unchanged. -/
theorem asksUpdateStatus_others (db : DB) (askId : String) (status : AskStatus) :
    ((AsksRepository.updateStatus db askId status).2).jobs = db.jobs ∧
    ((AsksRepository.updateStatus db askId status).2).answers = db.answers ∧
    ((AsksRepository.updateStatus db askId status).2).decisionCache = db.decisionCache := by
  unfold AsksRepository.updateStatus
  dsimp only
  split <;> exact ⟨rfl, rfl, rfl⟩

/-- When the Ask exists, the status UPDATE succeeds and every row with that
ask id carries the new status afterwards. -/
theorem asksUpdateStatus_found (db : DB) (askId : String) (status : AskStatus)
    (a : AskRow) (ha : a ∈ db.asks) (hid : a.askId = askId) :
    (AsksRepository.updateStatus db askId status).1 = .ok () ∧
    ∀ r ∈ ((AsksRepository.updateStatus db askId status).2).asks, r.askId = askId →
      r.status = status := by
  have hcz : db.asks.countP (fun r => decide (r.askId = askId)) ≠ 0 := by
    intro h0
    have := (List.countP_eq_zero).mp h0 a ha
    rw [decide_eq_true_eq] at this
    exact this hid
  unfold AsksRepository.updateStatus
  dsimp only
  rw [if_neg hcz]
  refine ⟨rfl, ?_⟩
  intro r hr hrid
  simp only [List.mem_map] at hr
  obtain ⟨r0, _, hmap⟩ := hr
  by_cases h0 : r0.askId = askId
  · rw [if_pos h0] at hmap
    rw [← hmap]
  · rw [if_neg h0] at hmap
    rw [← hmap] at hrid
    exact absurd hrid h0

/-- The Answer upsert leaves asks, jobs and the cache unchanged. -/
theorem answersCreate_others (db : DB) (now : Nat) (p : CreateAnswerParams) :
    ((AnswersRepository.create db now p).2).asks = db.asks ∧
    ((AnswersRepository.create db now p).2).jobs = db.jobs ∧
    ((AnswersRepository.create db now p).2).decisionCache = db.decisionCache := by
  unfold AnswersRepository.create
  dsimp only
  split
  · exact ⟨rfl, rfl, rfl⟩
  · split <;> exact ⟨rfl, rfl, rfl⟩

/-- Specification of the Answer upsert: under the foreign keys it succeeds
with a row carrying the payload's fields (replacing any previous row with the
same ask id), and afterwards the stored Answer for that ask id is exactly the
new row. -/
theorem answersCreate_spec (db : DB) (now : Nat) (p : CreateAnswerParams)
    (hask : ∃ a ∈ db.asks, a.askId = p.askId)
    (hjob : ∃ r ∈ db.jobs, r.id = p.jobId) :
    ∃ rec, (AnswersRepository.create db now p).1 = .ok rec ∧
      rec.askId = p.askId ∧ rec.status = p.status ∧
      rec.cacheable = p.cacheable.getD true ∧
      rec.answerText = p.answerText ∧ rec.answerJson = p.answerJson ∧
      rec.attestation = p.attestation ∧ rec.error = p.error ∧ rec.createdAt = now ∧
      (∀ r ∈ ((AnswersRepository.create db now p).2).answers,
        r.askId = p.askId → r = rec) ∧
      rec ∈ ((AnswersRepository.create db now p).2).answers := by
  unfold AnswersRepository.create
  dsimp only
  cases hfound : db.answers.find? (fun r => r.askId = p.askId) with
  | some old =>
    have holdid : old.askId = p.askId := by
      have := List.find?_some hfound
      simpa using this
    have holdmem : old ∈ db.answers := List.mem_of_find?_eq_some hfound
    refine ⟨_, rfl, holdid, rfl, rfl, rfl, rfl, rfl, rfl, rfl, ?_, ?_⟩
    · intro r hr hrid
      simp only [List.mem_map] at hr
      obtain ⟨r0, _, hmap⟩ := hr
      by_cases h0 : r0.askId = p.askId
      · rw [if_pos h0] at hmap
        rw [← hmap]
      · rw [if_neg h0] at hmap
        rw [← hmap] at hrid
        exact absurd hrid h0
    · have himg := List.mem_map_of_mem (f := fun r =>
        if r.askId = p.askId then
          { old with
            status := p.status, answerText := p.answerText, answerJson := p.answerJson,
            attestation := p.attestation, artifacts := p.artifacts,
            policyTrace := p.policyTrace, cacheable := p.cacheable.getD true,
            askBack := p.askBack, error := p.error, createdAt := now }
        else r) holdmem
      dsimp only at himg
      rw [if_pos holdid] at himg
      exact himg
  | none =>
    have hanyask : db.asks.any (fun r => r.askId = p.askId) = true := by
      obtain ⟨a, ha, hid⟩ := hask
      exact List.any_eq_true.mpr ⟨a, ha, by simpa using hid⟩
    have hanyjob : db.jobs.any (fun r => r.id = p.jobId) = true := by
      obtain ⟨r, hr, hid⟩ := hjob
      exact List.any_eq_true.mpr ⟨r, hr, by simpa using hid⟩
    rw [hanyask, hanyjob, if_neg (by simp : ¬((!true || !true) = true))]
    dsimp only
    refine ⟨_, rfl, rfl, rfl, rfl, rfl, rfl, rfl, rfl, rfl, ?_, ?_⟩
    · intro r hr hrid
      rw [List.mem_append] at hr
      cases hr with
      | inl hold =>
        have := List.find?_eq_none.mp hfound r hold
        simp only [decide_eq_true_eq] at this
        exact absurd hrid this
      | inr hnew => simpa using hnew
    · exact List.mem_append.mpr (Or.inr (by simp))

/-! ## C2 — idempotent submission -/

/-- `job1` canceled at t=200: a terminal job holding idempotency key `K1`. -/
def c2Db : DB := (JobManager.cancel db1 200 "job1").2

/-- C2 (counterexample to the claim as stated): with a terminal job holding
the key, `submit` does not create a fresh QUEUED job — the INSERT violates
the `idempotency_key UNIQUE` constraint and `submit` returns the error,
leaving the table unchanged. -/
theorem c2_submit_counterexample :
    ((c2Db.jobs.head?).map (fun r => (r.state, r.idempotencyKey))) =
      some (.CANCELED, "K1") ∧
    spec0.idempotencyKey = "K1" ∧
    (JobManager.submit c2Db 500 "job2" spec0).1 =
      .error "Failed to create job: UNIQUE constraint failed" ∧
    ((JobManager.submit c2Db 500 "job2" spec0).2).jobs = c2Db.jobs :=
  ⟨rfl, rfl, rfl, rfl⟩

/-- C2 (amended): `submit` returns the existing job's id unchanged while the
job with the same idempotency key is non-terminal; with no such job it
creates a fresh QUEUED job with `state_version` 0 and returns the new id;
but when the existing job is terminal, the attempted insert hits the
`idempotency_key UNIQUE` constraint and `submit` returns an error instead of
a fresh job id. -/
theorem c2_submit_idempotency :
    (∀ (db : DB) (now : Nat) (newId : String) (spec : JobSpec) (j : JobRow),
      db.jobs.find? (fun r => r.idempotencyKey = spec.idempotencyKey) = some j →
      isTerminalState j.state = false →
      JobManager.submit db now newId spec = (.ok j.id, db)) ∧
    (∀ (db : DB) (now : Nat) (newId : String) (spec : JobSpec),
      db.jobs.find? (fun r => r.idempotencyKey = spec.idempotencyKey) = none →
      db.jobs.all (fun r => !(r.id = newId)) = true →
      (JobManager.submit db now newId spec).1 = .ok newId ∧
      ((JobManager.submit db now newId spec).2).jobs = db.jobs ++
        [{ id := newId, idempotencyKey := spec.idempotencyKey, state := .QUEUED,
           stateVersion := 0, priority := spec.execution.priority, createdAt := now,
           ttlS := spec.execution.ttlS, spec := spec }]) ∧
    (∀ (db : DB) (now : Nat) (newId : String) (spec : JobSpec) (j : JobRow),
      db.jobs.find? (fun r => r.idempotencyKey = spec.idempotencyKey) = some j →
      isTerminalState j.state = true →
      JobManager.submit db now newId spec =
        (.error "Failed to create job: UNIQUE constraint failed", db)) := by
  refine ⟨?_, ?_, ?_⟩
  · intro db now newId spec j hfind hterm
    unfold JobManager.submit JobsRepository.getByIdempotencyKey
    rw [hfind]
    dsimp only
    rw [if_pos (by rw [hterm]; rfl)]
  · intro db now newId spec hfind hfresh
    have hany : db.jobs.any
        (fun r => r.id = newId || r.idempotencyKey = spec.idempotencyKey) = false := by
      rw [List.any_eq_false]
      intro r hr
      have h1 := (List.all_eq_true).mp hfresh r hr
      have h2 := List.find?_eq_none.mp hfind r hr
      simp only [Bool.not_eq_true', decide_eq_false_iff_not] at h1
      simp only [decide_eq_true_eq] at h2
      simp [h1, h2]
    unfold JobManager.submit JobsRepository.getByIdempotencyKey
    rw [hfind]
    dsimp only
    unfold JobManager.submitCreate JobsRepository.create
    rw [hany]
    dsimp only
    rw [if_neg (by simp)]
    dsimp only
    exact ⟨rfl, by rw [eventsCreate_jobs]⟩
  · intro db now newId spec j hfind hterm
    have hany : db.jobs.any
        (fun r => r.id = newId || r.idempotencyKey = spec.idempotencyKey) = true := by
      have hkey : j.idempotencyKey = spec.idempotencyKey := by
        have := List.find?_some hfind
        simpa using this
      exact List.any_eq_true.mpr
        ⟨j, List.mem_of_find?_eq_some hfind, by simp [hkey]⟩
    unfold JobManager.submit JobsRepository.getByIdempotencyKey
    rw [hfind]
    dsimp only
    rw [if_neg (by rw [hterm]; simp)]
    unfold JobManager.submitCreate JobsRepository.create
    rw [hany]
    dsimp only
    rw [if_pos rfl]

/-- Witness for C2 (amended) on concrete databases: the idempotent return in
`db1`, the fresh creation in the empty database, and the unique-key error on
the canceled `c2Db`. -/
theorem c2_submit_witness :
    JobManager.submit db1 150 "jobX" spec0 = (.ok "job1", db1) ∧
    (JobManager.submit emptyDB 100 "job1" spec0).1 = .ok "job1" ∧
    JobManager.submit c2Db 500 "job2" spec0 =
      (.error "Failed to create job: UNIQUE constraint failed", c2Db) := by
  refine ⟨?_, ?_, ?_⟩
  · exact c2_submit_idempotency.1 db1 150 "jobX" spec0 job1Row rfl rfl
  · exact (c2_submit_idempotency.2.1 emptyDB 100 "job1" spec0 rfl rfl).1
  · have hrow : c2Db.jobs.find? (fun r => r.idempotencyKey = spec0.idempotencyKey) =
        some { job1Row with
                 state := .CANCELED, stateVersion := 1,
                 summary := some "Canceled by user", finishedAt := some 200 } := rfl
    exact c2_submit_idempotency.2.2 c2Db 500 "job2" spec0 _ hrow rfl

/-! ## C4 — createAsk -/

/-- A valid envelope whose `role` is `default`. -/
def envA : Json := .obj [("job_snapshot", .obj []), ("role", .str "default")]

/-- A valid envelope whose `role` is `other` — structurally different from
`envA`. -/
def envB : Json := .obj [("job_snapshot", .obj []), ("role", .str "other")]

/-- A schema-valid Ask payload for `job1` carrying the given envelope. -/
def askP (env : Json) : AskPayload :=
  { ask_id := "123e4567-e89b-12d3-a456-426614174000", job_id := "job1", step_id := "s1",
    ask_type := .CLARIFICATION, prompt := "p", context_hash := "h",
    context_envelope := env }

/-- C4 (counterexample to the claim as stated): two payloads that differ only
in their context envelope produce byte-identical results — stored Ask row and
database included — because the asks INSERT has no envelope column; the
envelope is not stored alongside the hash. -/
theorem c4_createAsk_counterexample :
    envA ≠ envB ∧ (askP envA).context_envelope ≠ (askP envB).context_envelope ∧
    JobManager.createAsk db2 300 (askP envA) = JobManager.createAsk db2 300 (askP envB) := by
  refine ⟨?_, ?_, rfl⟩ <;> simp [envA, envB, askP]

/-- C4 (amended): for a schema-valid payload whose job is RUNNING,
`createAsk` stores the Ask with status PENDING — persisting the context hash
but not the envelope, which the repository drops — returns the stored record,
and transitions the job to WAITING_ON_ANSWER; for a job in any other state it
returns an error and changes nothing. -/
theorem c4_createAsk_stores_without_envelope :
    (∀ (db : DB) (now : Nat) (p : AskPayload) (j : JobRow),
      validAskPayload p = true →
      db.jobs.find? (fun r => r.id = p.job_id) = some j →
      j.state = .RUNNING →
      db.asks.all (fun r => !(r.askId = p.ask_id)) = true →
      ((JobManager.createAsk db now p).1 =
        .ok { askId := p.ask_id, jobId := p.job_id, stepId := p.step_id,
              askType := p.ask_type, prompt := p.prompt, contextHash := p.context_hash,
              constraints := p.constraints, roleId := p.role_id, meta := p.meta,
              createdAt := now, status := .PENDING } ∧
       ((JobManager.createAsk db now p).2).asks = db.asks ++
         [{ askId := p.ask_id, jobId := p.job_id, stepId := p.step_id,
            askType := p.ask_type, prompt := p.prompt, contextHash := p.context_hash,
            constraints := p.constraints, roleId := p.role_id, meta := p.meta,
            createdAt := now, status := .PENDING }] ∧
       (∀ r ∈ ((JobManager.createAsk db now p).2).jobs, r.id = p.job_id →
         r.state = .WAITING_ON_ANSWER))) ∧
    (∀ (db : DB) (now : Nat) (p : AskPayload) (j : JobRow),
      validAskPayload p = true →
      db.jobs.find? (fun r => r.id = p.job_id) = some j →
      j.state ≠ .RUNNING →
      (JobManager.createAsk db now p).1 =
        .error ("Cannot create Ask while job is in state " ++ j.state.name) ∧
      (JobManager.createAsk db now p).2 = db) := by
  constructor
  · intro db now p j hval hfind hrun hfresh
    have hid : j.id = p.job_id := by
      have := List.find?_some hfind
      simpa using this
    have hget : JobsRepository.getById db p.job_id = .ok j := by
      unfold JobsRepository.getById
      rw [hfind]
    have hcreate := asksCreate_success db now
      { askId := p.ask_id, jobId := p.job_id, stepId := p.step_id, askType := p.ask_type,
        prompt := p.prompt, contextHash := p.context_hash,
        contextEnvelope := p.context_envelope, constraints := p.constraints,
        roleId := p.role_id, meta := p.meta } hfresh
      ⟨j, List.mem_of_find?_eq_some hfind, hid⟩
    unfold JobManager.createAsk
    rw [hval, if_neg (by simp), hget]
    dsimp only
    rw [if_neg (by simp [hrun]), hcreate]
    dsimp only
    set row : AskRow :=
      { askId := p.ask_id, jobId := p.job_id, stepId := p.step_id,
        askType := p.ask_type, prompt := p.prompt, contextHash := p.context_hash,
        constraints := p.constraints, roleId := p.role_id, meta := p.meta,
        createdAt := now, status := .PENDING } with hrow
    set db1 : DB := { db with asks := db.asks ++ [row] } with hdb1
    have hmem1 : j ∈ db1.jobs := List.mem_of_find?_eq_some hfind
    have hupd := managerUpdateState_found db1 now p.job_id .WAITING_ON_ANSWER {} j hmem1 hid
    have hasks1 := managerUpdateState_asks db1 now p.job_id .WAITING_ON_ANSWER {}
    rcases hcall : JobManager.updateState db1 now p.job_id .WAITING_ON_ANSWER {}
      with ⟨res, db2⟩
    rw [hcall] at hupd hasks1
    cases res with
    | error e => exact absurd hupd.1 (by simp)
    | ok u =>
      dsimp only
      refine ⟨rfl, ?_, ?_⟩
      · rw [eventsCreate_asks]
        exact hasks1
      · intro r hr hrid
        rw [eventsCreate_jobs] at hr
        exact (hupd.2 r hr hrid).1
  · intro db now p j hval hfind hnotrun
    have hget : JobsRepository.getById db p.job_id = .ok j := by
      unfold JobsRepository.getById
      rw [hfind]
    unfold JobManager.createAsk
    rw [hval, if_neg (by simp), hget]
    dsimp only
    rw [if_pos hnotrun]
    exact ⟨rfl, rfl⟩

/-- The RUNNING row of `job1` inside `db2`. -/
def job1Running : JobRow :=
  { job1Row with
      state := .RUNNING, stateVersion := 1, leaseOwner := some "w1",
      leaseExpiresAt := some 60200, startedAt := some 200, heartbeatAt := some 200 }

/-- Witness for C4 (amended) on the concrete `db2`. -/
theorem c4_createAsk_witness :
    validAskPayload (askP envA) = true ∧
    (JobManager.createAsk db2 300 (askP envA)).1 =
      .ok { askId := "123e4567-e89b-12d3-a456-426614174000", jobId := "job1",
            stepId := "s1", askType := .CLARIFICATION, prompt := "p",
            contextHash := "h", createdAt := 300, status := .PENDING } ∧
    (∀ r ∈ ((JobManager.createAsk db2 300 (askP envA)).2).jobs, r.id = "job1" →
      r.state = .WAITING_ON_ANSWER) := by
  have h := c4_createAsk_stores_without_envelope.1 db2 300 (askP envA) job1Running
    rfl rfl rfl rfl
  exact ⟨rfl, h.1, h.2.2⟩

/-! ## C5 — recordAnswer -/

/-- The job transition the claim prescribes per answer status. -/
def answerTransitionTarget : AnswerStatus → JobState × Option FailReason
  | .ANSWERED => (.RUNNING, none)
  | .REJECTED => (.FAILED, some .POLICY)
  | .TIMEOUT => (.FAILED, some .TIMEOUT)
  | .ERROR => (.FAILED, some .EXECUTOR_ERROR)

/-- The manager-level state write, packaged as a full-pair equation for the
tail of `recordAnswer`. -/
theorem recordAnswer_finish (db : DB) (now : Nat) (jid : String) (st : JobState)
    (opts : JobManager.UpdateOptions) (j : JobRow) (hj : j ∈ db.jobs) (hid : j.id = jid) :
    ∃ db4, JobManager.updateState db now jid st opts = (.ok (), db4) ∧
      db4.answers = db.answers ∧ db4.asks = db.asks ∧
      db4.decisionCache = db.decisionCache ∧
      (∀ r ∈ db4.jobs, r.id = jid → r.state = st ∧ r.reasonCode = opts.reasonCode) := by
  have hupd := managerUpdateState_found db now jid st opts j hj hid
  have h1 := managerUpdateState_answers db now jid st opts
  have h2 := managerUpdateState_asks db now jid st opts
  have h3 := managerUpdateState_cache db now jid st opts
  rcases hcall : JobManager.updateState db now jid st opts with ⟨res, db4⟩
  rw [hcall] at hupd h1 h2 h3
  refine ⟨db4, ?_, h1, h2, h3, hupd.2⟩
  cases res with
  | error e => exact absurd hupd.1 (by simp)
  | ok u => cases u; rfl

/-- C5: for a valid Answer payload whose Ask exists (and whose job row
exists, as the foreign keys guarantee), `recordAnswer` upserts the Answer row
— replacing any previous Answer with the same ask id — sets the Ask's status
to the answer status, and transitions the job per the status: ANSWERED to
RUNNING; REJECTED to FAILED/POLICY; TIMEOUT to FAILED/TIMEOUT; ERROR to
FAILED/EXECUTOR_ERROR. -/
theorem c5_recordAnswer_upsert_and_transition
    (db : DB) (now : Nat) (p : AnswerPayload) (a : AskRow) (j : JobRow)
    (hval : validAnswerPayload p = true)
    (hfinda : db.asks.find? (fun r => r.askId = p.ask_id) = some a)
    (hfindj : db.jobs.find? (fun r => r.id = p.job_id) = some j) :
    ∃ rec, (JobManager.recordAnswer db now p).1 = .ok rec ∧
      rec.askId = p.ask_id ∧ rec.status = p.status ∧
      rec.cacheable = p.cacheable.getD true ∧
      rec.answerText = p.answer_text ∧ rec.answerJson = p.answer_json ∧
      rec.createdAt = now ∧
      (∀ r ∈ ((JobManager.recordAnswer db now p).2).answers,
        r.askId = p.ask_id → r = rec) ∧
      rec ∈ ((JobManager.recordAnswer db now p).2).answers ∧
      (∀ r ∈ ((JobManager.recordAnswer db now p).2).asks,
        r.askId = p.ask_id → r.status = answerToAskStatus p.status) ∧
      (∀ r ∈ ((JobManager.recordAnswer db now p).2).jobs, r.id = p.job_id →
        r.state = (answerTransitionTarget p.status).1 ∧
        r.reasonCode = (answerTransitionTarget p.status).2) := by
  have haid : a.askId = p.ask_id := by simpa using List.find?_some hfinda
  have hjid : j.id = p.job_id := by simpa using List.find?_some hfindj
  have hgeta : AsksRepository.getById db p.ask_id = .ok a := by
    unfold AsksRepository.getById
    rw [hfinda]
  obtain ⟨rec, hrec1, hrecid, hrecst, hreccb, hrecat, hrecaj, _, _, hreccr, hall, hmem⟩ :=
    answersCreate_spec db now
      { askId := p.ask_id, jobId := p.job_id, stepId := p.step_id, status := p.status,
        answerText := p.answer_text, answerJson := p.answer_json,
        attestation := p.attestation, artifacts := p.artifacts,
        policyTrace := p.policy_trace, cacheable := p.cacheable,
        askBack := p.ask_back, error := p.error }
      ⟨a, List.mem_of_find?_eq_some hfinda, haid⟩
      ⟨j, List.mem_of_find?_eq_some hfindj, hjid⟩
  have hoth := answersCreate_others db now
    { askId := p.ask_id, jobId := p.job_id, stepId := p.step_id, status := p.status,
      answerText := p.answer_text, answerJson := p.answer_json,
      attestation := p.attestation, artifacts := p.artifacts,
      policyTrace := p.policy_trace, cacheable := p.cacheable,
      askBack := p.ask_back, error := p.error }
  rcases hc1 : AnswersRepository.create db now
      { askId := p.ask_id, jobId := p.job_id, stepId := p.step_id, status := p.status,
        answerText := p.answer_text, answerJson := p.answer_json,
        attestation := p.attestation, artifacts := p.artifacts,
        policyTrace := p.policy_trace, cacheable := p.cacheable,
        askBack := p.ask_back, error := p.error }
    with ⟨res1, dbA⟩
  rw [hc1] at hrec1 hall hmem hoth
  dsimp only at hrec1 hall hmem hoth
  obtain rfl := hrec1
  have hamem : a ∈ dbA.asks := by
    rw [hoth.1]
    exact List.mem_of_find?_eq_some hfinda
  have hup := asksUpdateStatus_found dbA p.ask_id (answerToAskStatus p.status) a hamem haid
  have hupo := asksUpdateStatus_others dbA p.ask_id (answerToAskStatus p.status)
  rcases hc2 : AsksRepository.updateStatus dbA p.ask_id (answerToAskStatus p.status)
    with ⟨res2, dbB⟩
  rw [hc2] at hup hupo
  dsimp only at hup hupo
  obtain rfl := hup.1
  -- the audit event
  have hjmem3 : j ∈ ((EventsRepository.create dbB now p.job_id "answer.recorded"
      (.obj [("askId", .str p.ask_id), ("stepId", .str p.step_id),
             ("recordedAt", .num now)])).2).jobs := by
    rw [eventsCreate_jobs, hupo.1, hoth.2.1]
    exact List.mem_of_find?_eq_some hfindj
  -- database state before the final transition
  set db3 : DB := (EventsRepository.create dbB now p.job_id "answer.recorded"
    (.obj [("askId", .str p.ask_id), ("stepId", .str p.step_id),
           ("recordedAt", .num now)])).2 with hdb3
  have hans3 : db3.answers = dbA.answers := by
    rw [hdb3, eventsCreate_answers, hupo.2.1]
  have hasks3 : db3.asks = dbB.asks := by
    rw [hdb3, eventsCreate_asks]
  -- assemble, by cases on the answer status
  have hfin : ∀ (st : JobState) (opts : JobManager.UpdateOptions),
      ∃ db4, JobManager.updateState db3 now p.job_id st opts = (.ok (), db4) ∧
        db4.answers = dbA.answers ∧ db4.asks = dbB.asks ∧
        (∀ r ∈ db4.jobs, r.id = p.job_id → r.state = st ∧ r.reasonCode = opts.reasonCode) := by
    intro st opts
    obtain ⟨db4, hcall, ha1, ha2, _, ha4⟩ := recordAnswer_finish db3 now p.job_id st opts j
      hjmem3 hjid
    exact ⟨db4, hcall, by rw [ha1, hans3], by rw [ha2, hasks3], ha4⟩
  have hopen : JobManager.recordAnswer db now p =
      (match p.status with
       | .ANSWERED =>
         match JobManager.updateState db3 now p.job_id .RUNNING with
         | (.error e, db4) => ((.error e : Result AnswerRow), db4)
         | (.ok _, db4) => (.ok rec, db4)
       | .REJECTED =>
         match JobManager.updateState db3 now p.job_id .FAILED
             { reasonCode := some .POLICY,
               summary := some (((p.answer_text).orElse (fun _ => p.error)).getD
                 "Ask rejected by scheduler") } with
         | (.error e, db4) => ((.error e : Result AnswerRow), db4)
         | (.ok _, db4) => (.ok rec, db4)
       | .TIMEOUT =>
         match JobManager.updateState db3 now p.job_id .FAILED
             { reasonCode := some .TIMEOUT,
               summary := some (p.error.getD "Ask timed out waiting for response") } with
         | (.error e, db4) => ((.error e : Result AnswerRow), db4)
         | (.ok _, db4) => (.ok rec, db4)
       | .ERROR =>
         match JobManager.updateState db3 now p.job_id .FAILED
             { reasonCode := some .EXECUTOR_ERROR,
               summary := some (p.error.getD "Ask execution failed") } with
         | (.error e, db4) => ((.error e : Result AnswerRow), db4)
         | (.ok _, db4) => (.ok rec, db4)) := by
    unfold JobManager.recordAnswer
    rw [hval, if_neg (by simp), hgeta]
    dsimp only
    rw [hc1]
    dsimp only
    rw [hc2]
  cases hst : p.status with
  | ANSWERED =>
    obtain ⟨db4, hcall, h1, h2, h4⟩ := hfin .RUNNING {}
    rw [hst] at hopen
    dsimp only at hopen
    rw [hopen, hcall]
    dsimp only
    refine ⟨rec, rfl, hrecid, by exact hrecst.trans hst, hreccb, hrecat, hrecaj, hreccr,
      ?_, ?_, ?_, ?_⟩
    · intro r hr
      rw [h1] at hr
      exact hall r hr
    · rw [h1]
      exact hmem
    · intro r hr
      rw [h2] at hr
      rw [hst] at hup
      exact hup.2 r hr
    · intro r hr hid
      exact h4 r hr hid
  | REJECTED =>
    obtain ⟨db4, hcall, h1, h2, h4⟩ := hfin .FAILED
      { reasonCode := some .POLICY,
        summary := some (((p.answer_text).orElse (fun _ => p.error)).getD
          "Ask rejected by scheduler") }
    rw [hst] at hopen
    dsimp only at hopen
    rw [hopen, hcall]
    dsimp only
    refine ⟨rec, rfl, hrecid, by exact hrecst.trans hst, hreccb, hrecat, hrecaj, hreccr,
      ?_, ?_, ?_, ?_⟩
    · intro r hr
      rw [h1] at hr
      exact hall r hr
    · rw [h1]
      exact hmem
    · intro r hr
      rw [h2] at hr
      rw [hst] at hup
      exact hup.2 r hr
    · intro r hr hid
      exact h4 r hr hid
  | TIMEOUT =>
    obtain ⟨db4, hcall, h1, h2, h4⟩ := hfin .FAILED
      { reasonCode := some .TIMEOUT,
        summary := some (p.error.getD "Ask timed out waiting for response") }
    rw [hst] at hopen
    dsimp only at hopen
    rw [hopen, hcall]
    dsimp only
    refine ⟨rec, rfl, hrecid, by exact hrecst.trans hst, hreccb, hrecat, hrecaj, hreccr,
      ?_, ?_, ?_, ?_⟩
    · intro r hr
      rw [h1] at hr
      exact hall r hr
    · rw [h1]
      exact hmem
    · intro r hr
      rw [h2] at hr
      rw [hst] at hup
      exact hup.2 r hr
    · intro r hr hid
      exact h4 r hr hid
  | ERROR =>
    obtain ⟨db4, hcall, h1, h2, h4⟩ := hfin .FAILED
      { reasonCode := some .EXECUTOR_ERROR,
        summary := some (p.error.getD "Ask execution failed") }
    rw [hst] at hopen
    dsimp only at hopen
    rw [hopen, hcall]
    dsimp only
    refine ⟨rec, rfl, hrecid, by exact hrecst.trans hst, hreccb, hrecat, hrecaj, hreccr,
      ?_, ?_, ?_, ?_⟩
    · intro r hr
      rw [h1] at hr
      exact hall r hr
    · rw [h1]
      exact hmem
    · intro r hr
      rw [h2] at hr
      rw [hst] at hup
      exact hup.2 r hr
    · intro r hr hid
      exact h4 r hr hid

/-- The database after the Ask of `askP` is created on the leased job. -/
def c5Db : DB := (JobManager.createAsk db2 300 (askP envA)).2

/-- An ANSWERED payload for that Ask. -/
def ansP : AnswerPayload :=
  { ask_id := "123e4567-e89b-12d3-a456-426614174000", job_id := "job1", step_id := "s1",
    status := .ANSWERED, answer_text := some "done" }

/-- C5 witness: recording the ANSWERED payload on the concrete database
succeeds, the stored Answer carries status ANSWERED, the Ask is marked
ANSWERED, and the job returns to RUNNING with no reason code. -/
theorem c5_recordAnswer_witness :
    validAnswerPayload ansP = true ∧
    ∃ rec, (JobManager.recordAnswer c5Db 400 ansP).1 = .ok rec ∧
      rec.status = .ANSWERED ∧
      (∀ r ∈ ((JobManager.recordAnswer c5Db 400 ansP).2).asks,
        r.askId = ansP.ask_id → r.status = .ANSWERED) ∧
      (∀ r ∈ ((JobManager.recordAnswer c5Db 400 ansP).2).jobs, r.id = "job1" →
        r.state = .RUNNING ∧ r.reasonCode = none) := by
  obtain ⟨rec, h1, _, hst, _, _, _, _, _, _, hasks, hjobs⟩ :=
    c5_recordAnswer_upsert_and_transition c5Db 400 ansP _ _ rfl rfl rfl
  exact ⟨rfl, rec, h1, hst, fun r hr hid => hasks r hr hid, fun r hr hid => hjobs r hr hid⟩

/-! ## C7 — the decision cache in the processing path -/

/-- Definitional unfolding of the retry loop with at least one attempt left. -/
theorem attemptLoop_succ (cfg : RunnerConfig) (llm : Nat → Except String String)
    (ask : AskRecord) (role : Option RoleDefinition) (roleId : Option String)
    (prompt : String) (r attempt calls : Nat) (lastError : Option String) :
    attemptLoop cfg llm ask role roleId prompt (r + 1) attempt calls lastError =
      match llm attempt with
      | .error msg =>
        attemptLoop cfg llm ask role roleId prompt r (attempt + 1) (calls + 1) (some msg)
      | .ok text =>
        let parsed := parseResponse text
        let schemaCheck : Option Bool :=
          match role, parsed.answerJson with
          | some rd, some j =>
            match rd.output_schema with
            | some s => some (validateJsonSchema j s)
            | none => none
          | _, _ => none
        match schemaCheck with
        | some false =>
          if 0 < r then
            attemptLoop cfg llm ask role roleId prompt r (attempt + 1) (calls + 1)
              (some "JSON schema validation failed")
          else
            let rr : AnswerResult :=
              { status := .ANSWERED,
                answerText := some ("Schema validation failed. Raw output: " ++
                  serialize (parsed.answerJson.getD .null)),
                cacheable := some false }
            { result := rr, llmCalls := calls + 1 }
        | _ =>
          let attestation := generateAttestation cfg ask (roleId.getD "default")
            (match role with | some rd => toString rd.version | none => "1.0") prompt
            ((ask.constraints.bind (fun c => c.allowed_tools)).getD [])
          let rr : AnswerResult :=
            { status := .ANSWERED, answerText := parsed.answerText,
              answerJson := parsed.answerJson, askBack := parsed.askBack,
              attestation := some attestation, cacheable := some true }
          { result := rr, llmCalls := calls + 1 } := rfl

/-- Every return of the retry loop reports at least the calls made so far. -/
theorem attemptLoop_calls_le (cfg : RunnerConfig) (llm : Nat → Except String String)
    (ask : AskRecord) (role : Option RoleDefinition) (roleId : Option String)
    (prompt : String) :
    ∀ (remaining attempt calls : Nat) (lastError : Option String),
      calls ≤ (attemptLoop cfg llm ask role roleId prompt remaining attempt calls
        lastError).llmCalls := by
  intro remaining
  induction remaining with
  | zero =>
    intro attempt calls lastError
    exact Nat.le_refl calls
  | succ r ih =>
    intro attempt calls lastError
    rw [attemptLoop_succ]
    cases llm attempt with
    | error msg =>
      dsimp only
      exact Nat.le_of_succ_le (ih (attempt + 1) (calls + 1) (some msg))
    | ok text =>
      dsimp only
      split
      · split
        · exact Nat.le_of_succ_le (ih (attempt + 1) (calls + 1)
            (some "JSON schema validation failed"))
        · exact Nat.le_succ calls
      · exact Nat.le_succ calls

/-- With at least one attempt remaining, the retry loop invokes the LLM. -/
theorem attemptLoop_calls_pos (cfg : RunnerConfig) (llm : Nat → Except String String)
    (ask : AskRecord) (role : Option RoleDefinition) (roleId : Option String)
    (prompt : String) (r attempt calls : Nat) (lastError : Option String) :
    calls + 1 ≤ (attemptLoop cfg llm ask role roleId prompt (r + 1) attempt calls
      lastError).llmCalls := by
  rw [attemptLoop_succ]
  cases llm attempt with
  | error msg =>
    dsimp only
    exact attemptLoop_calls_le cfg llm ask role roleId prompt r (attempt + 1) (calls + 1)
      (some msg)
  | ok text =>
    dsimp only
    split
    · split
      · exact attemptLoop_calls_le cfg llm ask role roleId prompt r (attempt + 1) (calls + 1)
          (some "JSON schema validation failed")
      · exact Nat.le_refl (calls + 1)
    · exact Nat.le_refl (calls + 1)

/-- The database component of `recordAnswer`'s tail does not depend on
whether the final state write succeeded. -/
theorem recordAnswer_tail_cache (dbx : DB) (now : Nat) (jid : String) (st : JobState)
    (opts : JobManager.UpdateOptions) (rec : AnswerRow) :
    ((match JobManager.updateState dbx now jid st opts with
      | (.error e, db4) => ((.error e : Result AnswerRow), db4)
      | (.ok _, db4) => (.ok rec, db4)).2).decisionCache = dbx.decisionCache := by
  have h4 := managerUpdateState_cache dbx now jid st opts
  rcases hc4 : JobManager.updateState dbx now jid st opts with ⟨res4, db4⟩
  rw [hc4] at h4
  cases res4 with
  | error e => exact h4
  | ok u => exact h4

/-- `recordAnswer` never reads or writes the decision cache. -/
theorem recordAnswer_cache (db : DB) (now : Nat) (p : AnswerPayload) :
    ((JobManager.recordAnswer db now p).2).decisionCache = db.decisionCache := by
  unfold JobManager.recordAnswer
  split
  · rfl
  · split
    · rfl
    · have h1 := (answersCreate_others db now
        { askId := p.ask_id, jobId := p.job_id, stepId := p.step_id, status := p.status,
          answerText := p.answer_text, answerJson := p.answer_json,
          attestation := p.attestation, artifacts := p.artifacts,
          policyTrace := p.policy_trace, cacheable := p.cacheable,
          askBack := p.ask_back, error := p.error }).2.2
      rcases hc1 : AnswersRepository.create db now
          { askId := p.ask_id, jobId := p.job_id, stepId := p.step_id, status := p.status,
            answerText := p.answer_text, answerJson := p.answer_json,
            attestation := p.attestation, artifacts := p.artifacts,
            policyTrace := p.policy_trace, cacheable := p.cacheable,
            askBack := p.ask_back, error := p.error }
        with ⟨res1, dbA⟩
      rw [hc1] at h1
      dsimp only at h1
      cases res1 with
      | error e => exact h1
      | ok rec =>
        dsimp only
        have h2 := (asksUpdateStatus_others dbA p.ask_id (answerToAskStatus p.status)).2.2
        rcases hc2 : AsksRepository.updateStatus dbA p.ask_id (answerToAskStatus p.status)
          with ⟨res2, dbB⟩
        rw [hc2] at h2
        dsimp only at h2
        cases res2 with
        | error e => exact h2.trans h1
        | ok u =>
          dsimp only
          cases p.status <;>
            (rw [recordAnswer_tail_cache, eventsCreate_cache, h2, h1])

/-- C7: the decision cache is dead code in the processing path. The Answer
Runner never consults it: `processAsk` (the runner wired to `recordAnswer`)
leaves the `decision_cache` table byte-identical, the run outcome is computed
by `AnswerRunner.run` alone — independent of any cache contents — and
whenever the context hash matches and the role check passes (a repeat of an
identical Ask included), the LLM is invoked at least once; there is no cache
hit short-circuit and no `ttl_seconds = 86400` upsert. -/
theorem c7_decision_cache_never_consulted :
    (∀ (db : DB) (now : Nat) (cfg : RunnerConfig)
       (catalog : String → Option RoleDefinition) (llm : Nat → Except String String)
       (ask : AskRecord),
       (((processAsk db now cfg catalog llm ask).2.2).decisionCache = db.decisionCache) ∧
       (processAsk db now cfg catalog llm ask).1 = AnswerRunner.run cfg catalog llm ask) ∧
    (∀ (cfg : RunnerConfig) (catalog : String → Option RoleDefinition)
       (llm : Nat → Except String String) (ask : AskRecord),
       stableHashContext ask.contextEnvelope = ask.contextHash →
       ask.roleId = none →
       1 ≤ (AnswerRunner.run cfg catalog llm ask).llmCalls) := by
  refine ⟨?_, ?_⟩
  · intro db now cfg catalog llm ask
    exact ⟨recordAnswer_cache db now _, rfl⟩
  · intro cfg catalog llm ask hhash hrole
    unfold AnswerRunner.run
    dsimp only
    rw [if_neg (not_not_intro hhash), hrole]
    rw [if_neg (by simp)]
    exact attemptLoop_calls_pos cfg llm ask _ _ _ cfg.maxRetries 0 0 none

/-- A one-key envelope for the C7 witness. -/
def c7Env : Json := .obj [("k", .str "v")]

/-- An Ask whose stored hash is, by construction, the canonical hash of its
envelope, with no explicit role. -/
def c7Ask : AskRecord :=
  { askId := "223e4567-e89b-12d3-a456-426614174000", jobId := "job1", stepId := "s1",
    askType := .CLARIFICATION, prompt := "p",
    contextHash := stableHashContext c7Env, contextEnvelope := c7Env,
    createdAt := 300, status := .PENDING }

/-- C7 witness: processing the concrete Ask leaves the decision cache of the
concrete database unchanged, and the run — hash matching, no role id —
invokes the LLM at least once. -/
theorem c7_decision_cache_witness :
    (((processAsk db1 400 {} (fun _ => none) (fun _ => .ok "hi") c7Ask).2.2).decisionCache
      = db1.decisionCache) ∧
    1 ≤ (AnswerRunner.run {} (fun _ => none) (fun _ => .ok "hi") c7Ask).llmCalls :=
  ⟨(c7_decision_cache_never_consulted.1 db1 400 {} (fun _ => none)
      (fun _ => .ok "hi") c7Ask).1,
   c7_decision_cache_never_consulted.2 {} (fun _ => none) (fun _ => .ok "hi") c7Ask rfl rfl⟩

end TaskRelay
